import Mathlib

/-!
# Semantic-analysis context of the YQL statement compiler

A shallow embedding of `src/yb/sql/ptree/sem_context.cc` (class `SemContext`):
the type-compatibility check `IsConvertible`, the symbol table with its four
`MapSymbol` overloads, the lookups `SeekSymbol`, `GetColumnDefinition`,
`GetColumnDesc`, and the table resolver `LookupTable` with `GetTableDesc`.

Conventions of the embedding.

* A C++ call either returns, or aborts the process through `LOG(FATAL)`, or has
  no defined behaviour (a null dereference, a `static_cast` to a class the
  object does not have, an out-of-range `operator[]`).  The three are the
  constructors of `Run`.
* Member state that a method mutates is passed in and returned explicitly.
* Declarations that live in headers outside `src/` are either parameters
  (bundled in `Env`) or small definitions marked `Modelled from the spec`.
* The `int` counters of `LookupTable` are natural numbers: a schema has far
  fewer than `2^31` columns, so no conversion from `size_t` wraps.
-/

namespace yb.sql

/-! ## Outcomes of a call -/

/-- Outcome of running a C++ function: `done a` is an ordinary return of `a`,
`fatal` is the process abort of `LOG(FATAL)`, `undefined` is a step the C++
standard gives no meaning to. -/
inductive Run (α : Type) where
  | done (a : α)
  | fatal
  | undefined
  deriving DecidableEq, Repr

/-! ## Types and expressions -/

/-- Modelled from the spec: the enum `DataType` is declared outside `src/`.  The
five enumerators that `sem_context.cc` names are kept by name; every other
enumerator (INT32, STRING, ... : the remaining primitive kinds) is `other n`
with `n` its numeric value. -/
inductive DataType where
  | NULL_VALUE_TYPE
  | LIST
  | MAP
  | SET
  | TUPLE
  | other (n : Nat)
  deriving DecidableEq, Repr

/-- Modelled from the spec: class `YQLType` is declared outside `src/`.  A type
descriptor is its top-level kind `main()` and the vector `params()` of nested
descriptors; `MAP<K,V>` is `⟨MAP, [K, V]⟩`, `SET<E>` is `⟨SET, [E]⟩`,
`LIST<E>` is `⟨LIST, [E]⟩`. -/
inductive YQLType where
  | mk (main : DataType) (params : List YQLType)
  deriving Repr

/-- The accessor `YQLType::main()`. -/
def YQLType.main : YQLType → DataType
  | .mk m _ => m

/-- The accessor `YQLType::params()`. -/
def YQLType.params : YQLType → List YQLType
  | .mk _ ps => ps

/-- The accessor `YQLType::param_type(i)`, also `params()[i]`: `none` stands for
an index past the end of the vector, which C++ leaves undefined. -/
def YQLType.param_type (t : YQLType) (i : Nat) : Option YQLType :=
  t.params.get? i

/-- Modelled from the spec: the parse-tree classes are declared outside `src/`.
`PTSetExpr`, `PTMapExpr`, `PTListExpr` are the three collection expressions
with the members `elems()`, `keys()`, `values()` that the source reads; `leaf`
is any other expression node, of which only the statically inferred type tag
`yql_type_id()` is read. -/
inductive PTExpr where
  | leaf (yql_type_id : DataType)
  | PTSetExpr (elems : List PTExpr)
  | PTMapExpr (keys : List PTExpr) (values : List PTExpr)
  | PTListExpr (elems : List PTExpr)
  deriving Repr

/-- The accessor `PTExpr::yql_type_id()`: the collection expressions carry the
tag of their collection kind. -/
def PTExpr.yql_type_id : PTExpr → DataType
  | .leaf t => t
  | .PTSetExpr _ => DataType.SET
  | .PTMapExpr _ _ => DataType.MAP
  | .PTListExpr _ => DataType.LIST

/-! ## `SemContext::IsConvertible` -/

mutual

/-- Method `SemContext::IsConvertible(expr, type)`.  The parameter `conv` is the scalar
table `YQLType::IsImplicitlyConvertible(target, source)`, which lives outside
`src/`.  A `static_cast` to one of the collection classes is the `match` on the
expression: it yields the members of an object of that class and is undefined
on any other object. -/
def IsConvertible (conv : DataType → DataType → Bool) : PTExpr → YQLType → Run Bool
  | expr, type =>
    match type.main with
    | DataType.MAP =>
      if expr.yql_type_id = DataType.SET then
        match expr with
        | .PTSetExpr elems => Run.done elems.isEmpty
        | _ => Run.undefined
      else if expr.yql_type_id ≠ DataType.MAP then
        Run.done (expr.yql_type_id == DataType.NULL_VALUE_TYPE)
      else
        match type.param_type 0, type.param_type 1 with
        | some keys_type, some values_type =>
          match expr with
          | .PTMapExpr keys values =>
            match IsConvertibleAll conv keys keys_type with
            | Run.done true => IsConvertibleAll conv values values_type
            | r => r
          | _ => Run.undefined
        | _, _ => Run.undefined
    | DataType.SET =>
      if expr.yql_type_id ≠ DataType.SET then
        Run.done (expr.yql_type_id == DataType.NULL_VALUE_TYPE)
      else
        match type.param_type 0 with
        | some elem_type =>
          match expr with
          | .PTSetExpr elems => IsConvertibleAll conv elems elem_type
          | _ => Run.undefined
        | none => Run.undefined
    | DataType.LIST =>
      if expr.yql_type_id ≠ DataType.LIST then
        Run.done (expr.yql_type_id == DataType.NULL_VALUE_TYPE)
      else
        match type.param_type 0 with
        | some elem_type =>
          match expr with
          | .PTListExpr elems => IsConvertibleAll conv elems elem_type
          | _ => Run.undefined
        | none => Run.undefined
    | DataType.TUPLE => Run.fatal
    | _ => Run.done (conv type.main expr.yql_type_id)

/-- The loop `for (auto &e : es) { if (!IsConvertible(e, t)) return false; }`
followed by `return true`: the first element whose check does not return
`true` ends the loop with that element's outcome. -/
def IsConvertibleAll (conv : DataType → DataType → Bool) : List PTExpr → YQLType → Run Bool
  | [], _ => Run.done true
  | e :: es, t =>
    match IsConvertible conv e t with
    | Run.done true => IsConvertibleAll conv es t
    | r => r

end

/-- Sample scalar table used for concrete evaluations: a kind converts to
itself and `NULL` converts to every kind. -/
def sampleConv (target source : DataType) : Bool :=
  target == source || source == DataType.NULL_VALUE_TYPE

mutual

/-- Predicate "the type contains TUPLE", at the top level or in any nested
parameter. -/
def YQLType.containsTuple : YQLType → Bool
  | .mk m ps => m == DataType.TUPLE || containsTupleList ps

/-- Some descriptor of the list contains TUPLE. -/
def containsTupleList : List YQLType → Bool
  | [] => false
  | t :: ts => YQLType.containsTuple t || containsTupleList ts

end

/-- Method `SemContext::IsComparable(lhs_type, rhs_type)`; the parameter `cmp`
is the table `YQLType::IsComparable`, which lives outside `src/`. -/
def IsComparable (cmp : DataType → DataType → Bool) (lhs_type rhs_type : DataType) : Bool :=
  cmp lhs_type rhs_type

/-! ## Diagnostics -/

/-- Modelled from the spec: class `YBLocation` is declared outside `src/`; a
source location is a line and a column of the statement text. -/
structure YBLocation where
  line : Nat
  column : Nat
  deriving DecidableEq, Repr

/-- Modelled from the spec: the enum `ErrorCode` is declared outside `src/`;
these are the five codes that `sem_context.cc` reports. -/
inductive ErrorCode where
  | NO_NAMESPACE_USED
  | SYSTEM_NAMESPACE_READONLY
  | TABLE_NOT_FOUND
  | DUPLICATE_COLUMN
  | DUPLICATE_TABLE
  deriving DecidableEq, Repr

/-- Modelled from the spec: a `Status` is `OK` or the failure result that
`Error(loc, code)` builds, which carries the location and the error code. -/
inductive Status where
  | OK
  | Error (loc : YBLocation) (code : ErrorCode)
  deriving DecidableEq, Repr

/-! ## Catalog data -/

/-- Modelled from the spec: class `YBTableName` is declared outside `src/`; a
table name is a namespace and a table name, and an empty namespace means that
none was given. -/
structure YBTableName where
  namespace_name : String
  table_name : String
  deriving DecidableEq, Repr

/-- The accessor `YBTableName::has_namespace()`. -/
def YBTableName.has_namespace (n : YBTableName) : Bool :=
  decide (n.namespace_name ≠ "")

/-- The setter `YBTableName::set_namespace_name(ns)`. -/
def YBTableName.set_namespace_name (n : YBTableName) (ns : String) : YBTableName :=
  { n with namespace_name := ns }

/-- Modelled from the spec: the internal (runtime) type tag of a column, an
enumeration declared outside `src/`, by its numeric value. -/
abbrev InternalType := Nat

/-- Modelled from the spec: class `YBColumnSchema` is declared outside `src/`;
these are the members that `LookupTable` reads. -/
structure YBColumnSchema where
  name : String
  type : YQLType
  is_static : Bool
  is_counter : Bool

/-- Modelled from the spec: class `YBSchema` is declared outside `src/`.
`Column(idx)` is the element `idx` of `columns`, `num_columns()` is their
number and `ColumnId(idx)` is the catalog id of column `idx`. -/
structure YBSchema where
  columns : List YBColumnSchema
  ColumnId : Nat → Int
  num_key_columns : Nat
  num_hash_key_columns : Nat

/-- The accessor `YBSchema::num_columns()`. -/
def YBSchema.num_columns (s : YBSchema) : Nat :=
  s.columns.length

/-- Modelled from the spec: class `YBTable` is declared outside `src/`; of a
table handle only `schema()` is read. -/
structure YBTable where
  schema : YBSchema

/-- Modelled from the spec: class `ColumnDesc` is declared outside `src/`; the
eight attributes are the arguments of `ColumnDesc::Init`, in its order. -/
structure ColumnDesc where
  index : Nat
  id : Int
  is_hash : Bool
  is_primary : Bool
  is_static : Bool
  is_counter : Bool
  yql_type : YQLType
  internal_type : InternalType

/-- The method `ColumnDesc::Init(...)`: it overwrites every attribute of the
descriptor it is called on. -/
def ColumnDesc.Init (_self : ColumnDesc) (index : Nat) (id : Int)
    (is_hash is_primary is_static is_counter : Bool) (yql_type : YQLType)
    (internal_type : InternalType) : ColumnDesc :=
  { index := index, id := id, is_hash := is_hash, is_primary := is_primary,
    is_static := is_static, is_counter := is_counter, yql_type := yql_type,
    internal_type := internal_type }

/-- Modelled from the spec: the default-constructed `ColumnDesc` with which
`resize` fills new elements.  `LookupTable` calls `Init` on every element
before it reads it, so these attribute values are never observed. -/
def ColumnDesc.unset : ColumnDesc :=
  { index := 0, id := 0, is_hash := false, is_primary := false, is_static := false,
    is_counter := false, yql_type := .mk DataType.NULL_VALUE_TYPE [], internal_type := 0 }

/-- The call `v->resize(n)` on a vector of descriptors: the first `n` elements
are kept and default-constructed ones are appended up to length `n`. -/
def resize (v : List ColumnDesc) (n : Nat) : List ColumnDesc :=
  v.take n ++ List.replicate (n - v.length) ColumnDesc.unset

/-! ## Symbol table -/

/-- Modelled from the spec: the tree node `PTColumnDefinition` is declared
outside `src/`; `node` identifies the object a pointer refers to and `loc` is
its source location. -/
structure PTColumnDefinition where
  node : Nat
  loc : YBLocation
  deriving DecidableEq, Repr

/-- Modelled from the spec: the tree node `PTAlterColumnDefinition`, as
`PTColumnDefinition`. -/
structure PTAlterColumnDefinition where
  node : Nat
  loc : YBLocation
  deriving DecidableEq, Repr

/-- Modelled from the spec: the tree node `PTCreateTable`, as
`PTColumnDefinition`. -/
structure PTCreateTable where
  node : Nat
  loc : YBLocation
  deriving DecidableEq, Repr

/-- Modelled from the spec: struct `SymbolEntry` is declared outside `src/`: one
nullable pointer per kind of symbol, `none` being `nullptr`.  The descriptor
slot holds the descriptor that the pointer refers to. -/
structure SymbolEntry where
  column_ : Option PTColumnDefinition
  alter_column_ : Option PTAlterColumnDefinition
  create_table_ : Option PTCreateTable
  column_desc_ : Option ColumnDesc

/-- The value-initialised `SymbolEntry` that `symtab_[name]` inserts for a name
that has no entry: all four pointers are null. -/
def SymbolEntry.empty : SymbolEntry :=
  { column_ := none, alter_column_ := none, create_table_ := none, column_desc_ := none }

/-- The member `symtab_`, a map from identifier text to `SymbolEntry`: `none`
is a name without an entry. -/
abbrev SymTab := String → Option SymbolEntry

/-- The entry that the expression `symtab_[name]` refers to: the entry of the
name, or the one inserted for it when it had none. -/
def SymTab.subscript (symtab : SymTab) (name : String) : SymbolEntry :=
  (symtab name).getD SymbolEntry.empty

/-- The map after an assignment through `symtab_[name]`: `name` holds `e`,
every other name is unchanged. -/
def SymTab.store (symtab : SymTab) (name : String) (e : SymbolEntry) : SymTab :=
  fun n => if n = name then some e else symtab n

/-- The map after evaluating `symtab_[name]` without assigning: `operator[]`
has inserted an empty entry if the name had none. -/
def SymTab.touch (symtab : SymTab) (name : String) : SymTab :=
  symtab.store name (symtab.subscript name)

/-! ## State of a `SemContext` and its collaborators -/

/-- The members of `SemContext` that `sem_context.cc` reads or writes, with
the state of the two objects it calls into: `analyzed_tables` is the set kept
by `parse_tree_->AddAnalyzedTable`, `column_refs` the set of column ids kept by
`current_dml_stmt_->AddColumnRef`.  `catalog_calls` is a ghost field: the
arguments of the calls `sql_env_->GetTableDesc` made so far, in order. -/
structure SemContext where
  symtab_ : SymTab
  cache_used_ : Bool
  current_table_ : Option YBTable
  analyzed_tables : List YBTableName
  column_refs : Finset Int
  catalog_calls : List YBTableName

/-- The collaborators of `SemContext` that are declared outside `src/`, as
parameters: the session keyspace `sql_env_->CurrentKeyspace()`, the catalog
lookup `sql_env_->GetTableDesc(name, &cache_used)` returning the table handle
(`none` for `nullptr`) and the value left in `cache_used`, the classification
`YBTableName::is_system()`, the flag `FLAGS_yb_system_namespace_readonly`, and
`YBColumnSchema::ToInternalDataType`. -/
structure Env where
  CurrentKeyspace : String
  GetTableDesc : YBTableName → Option YBTable × Bool
  is_system : YBTableName → Bool
  FLAGS_yb_system_namespace_readonly : Bool
  ToInternalDataType : YQLType → InternalType

/-- Modelled from the spec: `ParseTree::AddAnalyzedTable`, declared outside
`src/`, records the table name in a set. -/
def AddAnalyzedTable (tables : List YBTableName) (name : YBTableName) : List YBTableName :=
  if name ∈ tables then tables else tables ++ [name]

/-- Modelled from the spec: `PTDmlStmt::AddColumnRef`, declared outside `src/`,
records the id of the column in the statement's set of column ids (the
comment in `GetColumnDesc` names the container: an `MCSet` of ids). -/
def AddColumnRef (refs : Finset Int) (col_desc : ColumnDesc) : Finset Int :=
  insert col_desc.id refs

/-! ## `SemContext::MapSymbol` -/

/-- Overload `SemContext::MapSymbol(name, PTColumnDefinition *entry)`. -/
def MapSymbol_PTColumnDefinition (symtab : SymTab) (name : String)
    (entry : PTColumnDefinition) : Status × SymTab :=
  if (symtab.subscript name).column_.isSome then
    (Status.Error entry.loc ErrorCode.DUPLICATE_COLUMN, symtab.touch name)
  else
    (Status.OK, symtab.store name { symtab.subscript name with column_ := some entry })

/-- Overload `SemContext::MapSymbol(name, PTAlterColumnDefinition *entry)`. -/
def MapSymbol_PTAlterColumnDefinition (symtab : SymTab) (name : String)
    (entry : PTAlterColumnDefinition) : Status × SymTab :=
  if (symtab.subscript name).alter_column_.isSome then
    (Status.Error entry.loc ErrorCode.DUPLICATE_COLUMN, symtab.touch name)
  else
    (Status.OK, symtab.store name { symtab.subscript name with alter_column_ := some entry })

/-- Overload `SemContext::MapSymbol(name, PTCreateTable *entry)`. -/
def MapSymbol_PTCreateTable (symtab : SymTab) (name : String)
    (entry : PTCreateTable) : Status × SymTab :=
  if (symtab.subscript name).create_table_.isSome then
    (Status.Error entry.loc ErrorCode.DUPLICATE_TABLE, symtab.touch name)
  else
    (Status.OK, symtab.store name { symtab.subscript name with create_table_ := some entry })

/-- Overload `SemContext::MapSymbol(name, ColumnDesc *entry)`: a populated
descriptor slot ends in `LOG(FATAL)`. -/
def MapSymbol_ColumnDesc (symtab : SymTab) (name : String)
    (entry : ColumnDesc) : Run (Status × SymTab) :=
  if (symtab.subscript name).column_desc_.isSome then
    Run.fatal
  else
    Run.done (Status.OK,
      symtab.store name { symtab.subscript name with column_desc_ := some entry })

/-! ## Lookups -/

/-- Method `SemContext::SeekSymbol(name)`: `find` does not insert. -/
def SeekSymbol (ctx : SemContext) (name : String) : Option SymbolEntry :=
  ctx.symtab_ name

/-- Method `SemContext::GetColumnDefinition(col_name)`. -/
def GetColumnDefinition (ctx : SemContext) (col_name : String) : Option PTColumnDefinition :=
  match SeekSymbol ctx col_name with
  | none => none
  | some entry => entry.column_

/-- Method `SemContext::GetColumnDesc(col_name, reading_column)`: the returned
pointer and the context afterwards.  With `reading_column` the expression
`*entry->column_desc_` dereferences the slot, which is undefined for a null
slot. -/
def GetColumnDesc (ctx : SemContext) (col_name : String) (reading_column : Bool) :
    Run (Option ColumnDesc × SemContext) :=
  match SeekSymbol ctx col_name with
  | none => Run.done (none, ctx)
  | some entry =>
    if reading_column then
      match entry.column_desc_ with
      | none => Run.undefined
      | some desc =>
        Run.done (entry.column_desc_,
          { ctx with column_refs := AddColumnRef ctx.column_refs desc })
    else
      Run.done (entry.column_desc_, ctx)

/-! ## `SemContext::GetTableDesc` and `SemContext::LookupTable` -/

/-- Method `SemContext::GetTableDesc(table_name)`: the returned handle and the
context afterwards. -/
def GetTableDesc (env : Env) (ctx : SemContext) (table_name : YBTableName) :
    Option YBTable × SemContext :=
  let cache_used := (env.GetTableDesc table_name).2
  let table := (env.GetTableDesc table_name).1
  let ctx := { ctx with catalog_calls := ctx.catalog_calls ++ [table_name] }
  match table with
  | some _ =>
    let ctx := { ctx with analyzed_tables := AddAnalyzedTable ctx.analyzed_tables table_name }
    (table, if cache_used then { ctx with cache_used_ := true } else ctx)
  | none => (table, ctx)

/-- The values behind the output pointers of `LookupTable`: `table`,
`table_columns`, `num_key_columns`, `num_hash_key_columns`, `is_system`. -/
structure LookupOut where
  table : Option YBTable
  table_columns : List ColumnDesc
  num_key_columns : Nat
  num_hash_key_columns : Nat
  is_system : Bool

/-- The loop `for (idx = ...; idx < num_columns; idx++)` of `LookupTable`, from
index `idx` on: `todo` holds the columns `schema.Column(idx)`,
`schema.Column(idx + 1)`, ... that are still to be visited.  It returns the
status with which the loop is left, the symbol table and `*table_columns`. -/
def LookupTable.loop (env : Env) (schema : YBSchema)
    (num_key_columns num_hash_key_columns : Nat) :
    List YBColumnSchema → Nat → SymTab → List ColumnDesc →
      Run (Status × SymTab × List ColumnDesc)
  | [], _, symtab, table_columns => Run.done (Status.OK, symtab, table_columns)
  | col :: todo, idx, symtab, table_columns =>
    let desc := (table_columns.getD idx ColumnDesc.unset).Init idx (schema.ColumnId idx)
      (decide (idx < num_hash_key_columns)) (decide (idx < num_key_columns))
      col.is_static col.is_counter col.type (env.ToInternalDataType col.type)
    let table_columns := table_columns.set idx desc
    match MapSymbol_ColumnDesc symtab col.name desc with
    | Run.done (Status.OK, symtab) =>
      LookupTable.loop env schema num_key_columns num_hash_key_columns todo (idx + 1)
        symtab table_columns
    | Run.done (status, symtab) => Run.done (status, symtab, table_columns)
    | Run.fatal => Run.fatal
    | Run.undefined => Run.undefined

/-- The statements of `LookupTable` after the namespace of `name` has been
settled (from `*is_system = name.is_system()` to the end). -/
def LookupTable.resolved (env : Env) (ctx : SemContext) (name : YBTableName) (out : LookupOut)
    (write_only : Bool) (loc : YBLocation) : Run (Status × SemContext × LookupOut) :=
  let out := { out with is_system := env.is_system name }
  if out.is_system && write_only && env.FLAGS_yb_system_namespace_readonly then
    Run.done (Status.Error loc ErrorCode.SYSTEM_NAMESPACE_READONLY, ctx, out)
  else
    let out := { out with table := (GetTableDesc env ctx name).1 }
    let ctx := (GetTableDesc env ctx name).2
    match out.table with
    | none => Run.done (Status.Error loc ErrorCode.TABLE_NOT_FOUND, ctx, out)
    | some table =>
      let ctx := { ctx with current_table_ := some table }
      let schema := table.schema
      let num_columns := schema.num_columns
      let out := { out with num_key_columns := schema.num_key_columns,
                            num_hash_key_columns := schema.num_hash_key_columns }
      let out := { out with table_columns := resize out.table_columns num_columns }
      match LookupTable.loop env schema out.num_key_columns out.num_hash_key_columns
          schema.columns 0 ctx.symtab_ out.table_columns with
      | Run.done (status, symtab, table_columns) =>
        Run.done (status, { ctx with symtab_ := symtab },
          { out with table_columns := table_columns })
      | Run.fatal => Run.fatal
      | Run.undefined => Run.undefined

/-- Method `SemContext::LookupTable(name, table, table_columns, num_key_columns,
num_hash_key_columns, is_system, write_only, loc)`.  `out` holds the values
behind the output pointers before the call; the result is the returned status,
the context afterwards and the values behind the output pointers afterwards. -/
def LookupTable (env : Env) (ctx : SemContext) (name : YBTableName) (out : LookupOut)
    (write_only : Bool) (loc : YBLocation) : Run (Status × SemContext × LookupOut) :=
  if !name.has_namespace then
    if decide (env.CurrentKeyspace = "") then
      Run.done (Status.Error loc ErrorCode.NO_NAMESPACE_USED, ctx, out)
    else
      LookupTable.resolved env ctx (name.set_namespace_name env.CurrentKeyspace) out
        write_only loc
  else
    LookupTable.resolved env ctx name out write_only loc

/-- The error code of a call that returned a failure status; `none` for a
call that returned `OK` or did not return. -/
def errorCode {α : Type} : Run (Status × α) → Option ErrorCode
  | Run.done (Status.Error _ code, _) => some code
  | _ => none

/-! ## Sample catalog for concrete evaluations -/

/-- The primitive type INT (kind 3). -/
def sampleInt : YQLType := .mk (DataType.other 3) []

/-- The primitive type TEXT (kind 5). -/
def sampleText : YQLType := .mk (DataType.other 5) []

/-- A three-column schema `(h INT, r TEXT, v INT)` with two key columns, the
first of which is the hash key; column `i` has catalog id `10 + i`. -/
def sampleSchema : YBSchema :=
  { columns := [ { name := "h", type := sampleInt, is_static := false, is_counter := false },
                 { name := "r", type := sampleText, is_static := false, is_counter := false },
                 { name := "v", type := sampleInt, is_static := true, is_counter := false } ],
    ColumnId := fun i => 10 + i,
    num_key_columns := 2,
    num_hash_key_columns := 1 }

/-- A catalog holding the tables `ks.t` and `system.peers` with the sample
schema, both served from the cache.  The namespace `system` is the system
namespace and the read-only flag is on. -/
def sampleEnv (keyspace : String) : Env :=
  { CurrentKeyspace := keyspace,
    GetTableDesc := fun n =>
      if n = ⟨"ks", "t"⟩ ∨ n = ⟨"system", "peers"⟩ then (some ⟨sampleSchema⟩, true)
      else (none, false),
    is_system := fun n => decide (n.namespace_name = "system"),
    FLAGS_yb_system_namespace_readonly := true,
    ToInternalDataType := fun t =>
      match t.main with
      | DataType.other n => n
      | _ => 0 }

/-- A fresh context: empty symbol table, nothing recorded. -/
def sampleCtx : SemContext :=
  { symtab_ := fun _ => none, cache_used_ := false, current_table_ := none,
    analyzed_tables := [], column_refs := ∅, catalog_calls := [] }

/-- Output variables of a caller before the call. -/
def sampleOut : LookupOut :=
  { table := none, table_columns := [], num_key_columns := 0, num_hash_key_columns := 0,
    is_system := false }

/-- A schema in which the first and the third column share the name `a`. -/
def sampleDupSchema : YBSchema :=
  { columns := [ { name := "a", type := sampleInt, is_static := false, is_counter := false },
                 { name := "b", type := sampleText, is_static := false, is_counter := false },
                 { name := "a", type := sampleInt, is_static := false, is_counter := false } ],
    ColumnId := fun i => 20 + i,
    num_key_columns := 1,
    num_hash_key_columns := 1 }

/-- A catalog that returns the table with the schema `sampleDupSchema` for
every name, not from the cache; no system namespace, flag off. -/
def sampleDupEnv : Env :=
  { CurrentKeyspace := "ks",
    GetTableDesc := fun _ => (some ⟨sampleDupSchema⟩, false),
    is_system := fun _ => false,
    FLAGS_yb_system_namespace_readonly := false,
    ToInternalDataType := fun _ => 0 }

/-- A catalog that holds no table and sets `cache_used` on every lookup. -/
def sampleMissEnv : Env :=
  { CurrentKeyspace := "ks",
    GetTableDesc := fun _ => (none, true),
    is_system := fun _ => false,
    FLAGS_yb_system_namespace_readonly := false,
    ToInternalDataType := fun _ => 0 }

/-- Three column-definition nodes of a statement, at different locations. -/
def sampleDef (k : Nat) : PTColumnDefinition :=
  { node := k, loc := ⟨1, 10 * k⟩ }

/-- A context whose symbol table has one entry, `c`, which holds the column
definition `sampleDef 0` and no resolved descriptor. -/
def sampleDefCtx : SemContext :=
  { sampleCtx with
    symtab_ := fun n =>
      if n = "c" then
        some { column_ := some (sampleDef 0), alter_column_ := none, create_table_ := none,
               column_desc_ := none }
      else none }

/-- A resolved descriptor: column 0 with catalog id 10, a hash key of type
INT. -/
def sampleDesc : ColumnDesc :=
  ColumnDesc.unset.Init 0 10 true true false false sampleInt 3

/-- A context whose symbol table has one entry, `h`, which holds the resolved
descriptor `sampleDesc` and nothing else; no column is marked as read. -/
def sampleDescCtx : SemContext :=
  { sampleCtx with
    symtab_ := fun n =>
      if n = "h" then
        some { column_ := none, alter_column_ := none, create_table_ := none,
               column_desc_ := some sampleDesc }
      else none }

/-- Two calls of `MapSymbol(name, PTColumnDefinition *)` in sequence, `d1`
under `n1` and then `d2` under `n2`: the two returned statuses and the symbol
table after the second call. -/
def MapSymbolTwice (symtab : SymTab) (n1 : String) (d1 : PTColumnDefinition)
    (n2 : String) (d2 : PTColumnDefinition) : Status × Status × SymTab :=
  ((MapSymbol_PTColumnDefinition symtab n1 d1).1,
   (MapSymbol_PTColumnDefinition (MapSymbol_PTColumnDefinition symtab n1 d1).2 n2 d2).1,
   (MapSymbol_PTColumnDefinition (MapSymbol_PTColumnDefinition symtab n1 d1).2 n2 d2).2)

/-- The context after a call of `LookupTable` that returned; `none` for a
call that did not return. -/
def ctxAfter : Run (Status × SemContext × LookupOut) → Option SemContext
  | Run.done (_, ctx, _) => some ctx
  | _ => none

/-! ## Properties of `IsConvertible` -/

theorem IsConvertibleAll_nil (conv : DataType → DataType → Bool) (t : YQLType) :
    IsConvertibleAll conv [] t = Run.done true := by
  simp [IsConvertibleAll]

theorem IsConvertibleAll_cons (conv : DataType → DataType → Bool) (e : PTExpr)
    (es : List PTExpr) (t : YQLType) :
    IsConvertibleAll conv (e :: es) t =
      (match IsConvertible conv e t with
       | Run.done true => IsConvertibleAll conv es t
       | r => r) := by
  simp [IsConvertibleAll]

/-- The element loop returns `true` exactly when every element's check returns
`true`. -/
theorem IsConvertibleAll_eq_true_iff (conv : DataType → DataType → Bool)
    (es : List PTExpr) (t : YQLType) :
    IsConvertibleAll conv es t = Run.done true ↔
      ∀ e ∈ es, IsConvertible conv e t = Run.done true := by
  induction es with
  | nil => simp [IsConvertibleAll_nil]
  | cons e es ih =>
    rw [IsConvertibleAll_cons]
    cases h : IsConvertible conv e t with
    | done b => cases b <;> simp [ih, h]
    | fatal => simp [h]
    | undefined => simp [h]

/-- An element whose check returns `false` keeps the loop from returning
`true`. -/
theorem IsConvertibleAll_ne_true_of_mem (conv : DataType → DataType → Bool)
    (es : List PTExpr) (t : YQLType) (e : PTExpr) (he : e ∈ es)
    (hf : IsConvertible conv e t = Run.done false) :
    IsConvertibleAll conv es t ≠ Run.done true := by
  intro h
  have := (IsConvertibleAll_eq_true_iff conv es t).1 h e he
  rw [hf] at this
  cases this

theorem IsConvertible_set_set (conv : DataType → DataType → Bool) (es : List PTExpr)
    (E : YQLType) (ps : List YQLType) :
    IsConvertible conv (.PTSetExpr es) (.mk DataType.SET (E :: ps)) =
      IsConvertibleAll conv es E := by
  simp [IsConvertible, YQLType.main, YQLType.param_type, YQLType.params, PTExpr.yql_type_id]

theorem IsConvertible_list_list (conv : DataType → DataType → Bool) (es : List PTExpr)
    (E : YQLType) (ps : List YQLType) :
    IsConvertible conv (.PTListExpr es) (.mk DataType.LIST (E :: ps)) =
      IsConvertibleAll conv es E := by
  simp [IsConvertible, YQLType.main, YQLType.param_type, YQLType.params, PTExpr.yql_type_id]

theorem IsConvertible_map_map (conv : DataType → DataType → Bool) (ks vs : List PTExpr)
    (K V : YQLType) (ps : List YQLType) :
    IsConvertible conv (.PTMapExpr ks vs) (.mk DataType.MAP (K :: V :: ps)) =
      (match IsConvertibleAll conv ks K with
       | Run.done true => IsConvertibleAll conv vs V
       | r => r) := by
  simp [IsConvertible, YQLType.main, YQLType.param_type, YQLType.params, PTExpr.yql_type_id]

theorem containsTuple_mk (m : DataType) (ps : List YQLType) :
    (YQLType.mk m ps).containsTuple = (m == DataType.TUPLE || containsTupleList ps) := by
  simp [YQLType.containsTuple]

theorem containsTupleList_cons (t : YQLType) (ts : List YQLType) :
    containsTupleList (t :: ts) = (t.containsTuple || containsTupleList ts) := by
  simp [containsTupleList]

/-- A parameter read by `param_type` of a type without TUPLE has no TUPLE. -/
theorem containsTuple_param_type (T P : YQLType) (i : Nat)
    (h : T.containsTuple = false) (hp : T.param_type i = some P) :
    P.containsTuple = false := by
  cases T with
  | mk m ps =>
    rw [containsTuple_mk] at h
    simp only [Bool.or_eq_false_iff] at h
    have hps := h.2
    simp only [YQLType.param_type, YQLType.params] at hp
    clear h
    induction ps generalizing i with
    | nil => simp at hp
    | cons q qs ih =>
      rw [containsTupleList_cons] at hps
      simp only [Bool.or_eq_false_iff] at hps
      cases i with
      | zero =>
        simp at hp
        rw [← hp]; exact hps.1
      | succ j =>
        simp at hp
        exact ih j (by simpa using hp) hps.2

mutual

/-- Against a target type without TUPLE the check never takes the
`LOG(FATAL)` branch. -/
theorem IsConvertible_ne_fatal (conv : DataType → DataType → Bool) :
    ∀ (e : PTExpr) (T : YQLType), T.containsTuple = false →
      IsConvertible conv e T ≠ Run.fatal
  | .leaf t, T, h => by
    have hm : T.main ≠ DataType.TUPLE := by
      cases T with
      | mk m ps =>
        rw [containsTuple_mk] at h
        simp only [Bool.or_eq_false_iff] at h
        simpa [YQLType.main] using h.1
    simp only [IsConvertible]
    split
    · simp only [PTExpr.yql_type_id]; split
      · simp
      · split
        · simp
        · split <;> simp
    · simp only [PTExpr.yql_type_id]; split
      · simp
      · split <;> simp
    · simp only [PTExpr.yql_type_id]; split
      · simp
      · split <;> simp
    · rename_i heq; exact absurd heq hm
    · simp
  | .PTSetExpr es, T, h => by
    have hm : T.main ≠ DataType.TUPLE := by
      cases T with
      | mk m ps =>
        rw [containsTuple_mk] at h
        simp only [Bool.or_eq_false_iff] at h
        simpa [YQLType.main] using h.1
    simp only [IsConvertible]
    split
    · simp [PTExpr.yql_type_id]
    · simp only [PTExpr.yql_type_id]; split
      · simp
      · split
        · rename_i E hE
          exact IsConvertibleAll_ne_fatal conv es E (containsTuple_param_type T E 0 h hE)
        · simp
    · simp [PTExpr.yql_type_id]
    · rename_i heq; exact absurd heq hm
    · simp
  | .PTMapExpr ks vs, T, h => by
    have hm : T.main ≠ DataType.TUPLE := by
      cases T with
      | mk m ps =>
        rw [containsTuple_mk] at h
        simp only [Bool.or_eq_false_iff] at h
        simpa [YQLType.main] using h.1
    simp only [IsConvertible]
    split
    · simp only [PTExpr.yql_type_id]
      split
      · simp
      · split
        · simp
        · split
          · rename_i K V hK hV
            have h1 := IsConvertibleAll_ne_fatal conv ks K (containsTuple_param_type T K 0 h hK)
            have h2 := IsConvertibleAll_ne_fatal conv vs V (containsTuple_param_type T V 1 h hV)
            split
            · exact h2
            · exact h1
          · simp
    · simp [PTExpr.yql_type_id]
    · simp [PTExpr.yql_type_id]
    · rename_i heq; exact absurd heq hm
    · simp
  | .PTListExpr es, T, h => by
    have hm : T.main ≠ DataType.TUPLE := by
      cases T with
      | mk m ps =>
        rw [containsTuple_mk] at h
        simp only [Bool.or_eq_false_iff] at h
        simpa [YQLType.main] using h.1
    simp only [IsConvertible]
    split
    · simp [PTExpr.yql_type_id]
    · simp [PTExpr.yql_type_id]
    · simp only [PTExpr.yql_type_id]; split
      · simp
      · split
        · rename_i E hE
          exact IsConvertibleAll_ne_fatal conv es E (containsTuple_param_type T E 0 h hE)
        · simp
    · rename_i heq; exact absurd heq hm
    · simp

/-- The element loop against a type without TUPLE never takes the
`LOG(FATAL)` branch. -/
theorem IsConvertibleAll_ne_fatal (conv : DataType → DataType → Bool) :
    ∀ (es : List PTExpr) (T : YQLType), T.containsTuple = false →
      IsConvertibleAll conv es T ≠ Run.fatal
  | [], T, _ => by simp [IsConvertibleAll_nil]
  | e :: es, T, h => by
    rw [IsConvertibleAll_cons]
    have h1 := IsConvertible_ne_fatal conv e T h
    have h2 := IsConvertibleAll_ne_fatal conv es T h
    cases hr : IsConvertible conv e T with
    | done b => cases b <;> simp [h2]
    | fatal => exact absurd hr h1
    | undefined => simp

end

/-- When every element's check returns, one element whose check returns
`false` makes the loop return `false`. -/
theorem IsConvertibleAll_eq_false_of_mem (conv : DataType → DataType → Bool)
    (es : List PTExpr) (t : YQLType)
    (hret : ∀ x ∈ es, ∃ b, IsConvertible conv x t = Run.done b)
    (e : PTExpr) (he : e ∈ es) (hf : IsConvertible conv e t = Run.done false) :
    IsConvertibleAll conv es t = Run.done false := by
  induction es with
  | nil => cases he
  | cons x xs ih =>
    rw [IsConvertibleAll_cons]
    obtain ⟨b, hb⟩ := hret x (List.mem_cons_self x xs)
    cases b with
    | false => simp [hb]
    | true =>
      simp only [hb]
      rcases List.mem_cons.1 he with hx | hx
      · subst hx; rw [hf] at hb; cases hb
      · exact ih (fun y hy => hret y (List.mem_cons_of_mem x hy)) hx

/-- Replacing one element of a list that passes the loop by an element whose
check returns `false` makes the loop return `false`. -/
theorem IsConvertibleAll_set_false (conv : DataType → DataType → Bool)
    (es : List PTExpr) (t : YQLType) (i : Nat) (e : PTExpr) (hi : i < es.length)
    (hall : IsConvertibleAll conv es t = Run.done true)
    (hf : IsConvertible conv e t = Run.done false) :
    IsConvertibleAll conv (es.set i e) t = Run.done false := by
  induction es generalizing i with
  | nil => simp at hi
  | cons x xs ih =>
    have hx : IsConvertible conv x t = Run.done true :=
      (IsConvertibleAll_eq_true_iff conv (x :: xs) t).1 hall x (List.mem_cons_self x xs)
    have hxs : IsConvertibleAll conv xs t = Run.done true :=
      (IsConvertibleAll_eq_true_iff conv xs t).2 (fun y hy =>
        (IsConvertibleAll_eq_true_iff conv (x :: xs) t).1 hall y (List.mem_cons_of_mem x hy))
    cases i with
    | zero => simp [List.set, IsConvertibleAll_cons, hf]
    | succ j =>
      simp only [List.set, IsConvertibleAll_cons, hx]
      exact ih j (by simpa using hi) hxs

/-! ## Claims on `IsConvertible` -/

/-- C1: for an element type `E` without TUPLE and any element expressions `es`,
`IsConvertible(SetExpr{es}, SET<E>)` is true iff `IsConvertible(e, E)` is true
for every `e` in `es`, and the same for `IsConvertible(ListExpr{es}, LIST<E>)`.
An element whose check is false keeps the whole check from being true, and
makes it false when every element's check returns; the empty set literal is
convertible to `SET<E>`; neither check takes the fatal branch. -/
theorem IsConvertible_set_list_iff_all (conv : DataType → DataType → Bool)
    (E : YQLType) (es : List PTExpr) (hE : E.containsTuple = false) :
    (IsConvertible conv (.PTSetExpr es) (.mk DataType.SET [E]) = Run.done true ↔
        ∀ e ∈ es, IsConvertible conv e E = Run.done true) ∧
    (IsConvertible conv (.PTListExpr es) (.mk DataType.LIST [E]) = Run.done true ↔
        ∀ e ∈ es, IsConvertible conv e E = Run.done true) ∧
    (∀ e ∈ es, IsConvertible conv e E = Run.done false →
        IsConvertible conv (.PTSetExpr es) (.mk DataType.SET [E]) ≠ Run.done true ∧
        IsConvertible conv (.PTListExpr es) (.mk DataType.LIST [E]) ≠ Run.done true) ∧
    ((∀ x ∈ es, ∃ b, IsConvertible conv x E = Run.done b) →
      ∀ e ∈ es, IsConvertible conv e E = Run.done false →
        IsConvertible conv (.PTSetExpr es) (.mk DataType.SET [E]) = Run.done false ∧
        IsConvertible conv (.PTListExpr es) (.mk DataType.LIST [E]) = Run.done false) ∧
    IsConvertible conv (.PTSetExpr []) (.mk DataType.SET [E]) = Run.done true ∧
    IsConvertible conv (.PTSetExpr es) (.mk DataType.SET [E]) ≠ Run.fatal ∧
    IsConvertible conv (.PTListExpr es) (.mk DataType.LIST [E]) ≠ Run.fatal := by
  simp only [IsConvertible_set_set, IsConvertible_list_list]
  refine ⟨IsConvertibleAll_eq_true_iff conv es E, IsConvertibleAll_eq_true_iff conv es E,
    ?_, ?_, IsConvertibleAll_nil conv E, IsConvertibleAll_ne_fatal conv es E hE,
    IsConvertibleAll_ne_fatal conv es E hE⟩
  · intro e he hf
    exact ⟨IsConvertibleAll_ne_true_of_mem conv es E e he hf,
      IsConvertibleAll_ne_true_of_mem conv es E e he hf⟩
  · intro hret e he hf
    exact ⟨IsConvertibleAll_eq_false_of_mem conv es E hret e he hf,
      IsConvertibleAll_eq_false_of_mem conv es E hret e he hf⟩

/-- Witness of C1 on `SetLiteral{1, 2, "x"}` against `SET<INT>`, with INT the
primitive kind 3 and TEXT the primitive kind 5: the third element is not
convertible, so the set literal is not. -/
theorem IsConvertible_set_list_iff_all_witness :
    (YQLType.mk (DataType.other 3) []).containsTuple = false ∧
    IsConvertible sampleConv
        (.PTSetExpr [.leaf (DataType.other 3), .leaf (DataType.other 3), .leaf (DataType.other 5)])
        (.mk DataType.SET [.mk (DataType.other 3) []]) = Run.done false :=
  ⟨by decide,
   ((IsConvertible_set_list_iff_all sampleConv (.mk (DataType.other 3) [])
      [.leaf (DataType.other 3), .leaf (DataType.other 3), .leaf (DataType.other 5)]
      (by decide)).2.2.2.1
      (by
        intro x hx
        simp only [List.mem_cons, List.mem_singleton, List.not_mem_nil, or_false] at hx
        rcases hx with rfl | rfl | rfl <;> exact ⟨_, rfl⟩)
      (.leaf (DataType.other 5)) (by simp) (by decide)).1⟩

/-- C2: for key and value types `K`, `V` without TUPLE and a map expression
with keys `ks` and values `vs`, `IsConvertible(MapExpr{ks, vs}, MAP<K,V>)` is
true iff every key is convertible to `K` and every value to `V`; replacing one
value of a convertible map expression by an expression not convertible to `V`
makes the result false; the check does not take the fatal branch. -/
theorem IsConvertible_map_iff_all (conv : DataType → DataType → Bool)
    (K V : YQLType) (ks vs : List PTExpr)
    (hK : K.containsTuple = false) (hV : V.containsTuple = false) :
    (IsConvertible conv (.PTMapExpr ks vs) (.mk DataType.MAP [K, V]) = Run.done true ↔
        (∀ k ∈ ks, IsConvertible conv k K = Run.done true) ∧
        (∀ v ∈ vs, IsConvertible conv v V = Run.done true)) ∧
    (∀ (i : Nat) (w : PTExpr), i < vs.length →
        IsConvertible conv (.PTMapExpr ks vs) (.mk DataType.MAP [K, V]) = Run.done true →
        IsConvertible conv w V = Run.done false →
        IsConvertible conv (.PTMapExpr ks (vs.set i w)) (.mk DataType.MAP [K, V]) =
          Run.done false) ∧
    IsConvertible conv (.PTMapExpr ks vs) (.mk DataType.MAP [K, V]) ≠ Run.fatal := by
  have hiff : IsConvertible conv (.PTMapExpr ks vs) (.mk DataType.MAP [K, V]) = Run.done true ↔
      IsConvertibleAll conv ks K = Run.done true ∧ IsConvertibleAll conv vs V = Run.done true := by
    rw [IsConvertible_map_map]
    cases hk : IsConvertibleAll conv ks K with
    | done b => cases b <;> simp
    | fatal => simp
    | undefined => simp
  refine ⟨?_, ?_, ?_⟩
  · rw [hiff, IsConvertibleAll_eq_true_iff, IsConvertibleAll_eq_true_iff]
  · intro i w hi hall hf
    have h := hiff.1 hall
    rw [IsConvertible_map_map, h.1]
    exact IsConvertibleAll_set_false conv vs V i w hi h.2 hf
  · rw [IsConvertible_map_map]
    have h1 := IsConvertibleAll_ne_fatal conv ks K hK
    have h2 := IsConvertibleAll_ne_fatal conv vs V hV
    cases hk : IsConvertibleAll conv ks K with
    | done b => cases b <;> simp [h2]
    | fatal => exact absurd hk h1
    | undefined => simp

/-- Witness of C2 on `MapLiteral{"a":1, "b":2}` against `MAP<TEXT,INT>` (TEXT
the primitive kind 5, INT the primitive kind 3): the literal is convertible,
and with the second value replaced by a TEXT literal it is not. -/
theorem IsConvertible_map_iff_all_witness :
    (YQLType.mk (DataType.other 5) []).containsTuple = false ∧
    (YQLType.mk (DataType.other 3) []).containsTuple = false ∧
    IsConvertible sampleConv
        (.PTMapExpr [.leaf (DataType.other 5), .leaf (DataType.other 5)]
          [.leaf (DataType.other 3), .leaf (DataType.other 3)])
        (.mk DataType.MAP [.mk (DataType.other 5) [], .mk (DataType.other 3) []]) = Run.done true ∧
    IsConvertible sampleConv
        (.PTMapExpr [.leaf (DataType.other 5), .leaf (DataType.other 5)]
          [.leaf (DataType.other 3), .leaf (DataType.other 5)])
        (.mk DataType.MAP [.mk (DataType.other 5) [], .mk (DataType.other 3) []]) = Run.done false :=
  ⟨by decide, by decide,
   (IsConvertible_map_iff_all sampleConv (.mk (DataType.other 5) []) (.mk (DataType.other 3) [])
      [.leaf (DataType.other 5), .leaf (DataType.other 5)]
      [.leaf (DataType.other 3), .leaf (DataType.other 3)] (by decide) (by decide)).1.2
     ⟨by decide, by decide⟩,
   (IsConvertible_map_iff_all sampleConv (.mk (DataType.other 5) []) (.mk (DataType.other 3) [])
      [.leaf (DataType.other 5), .leaf (DataType.other 5)]
      [.leaf (DataType.other 3), .leaf (DataType.other 3)] (by decide) (by decide)).2.1
     1 (.leaf (DataType.other 5)) (by decide) (by decide) (by decide)⟩

/-- C3: for a target whose top-level kind `m` is MAP, SET or LIST, with any
parameter vector, and an expression whose type tag differs from `m` (and, for
MAP, also differs from SET), `IsConvertible` returns the test "type tag =
NULL"; the parameters of the target and the members of the expression play no
part. -/
theorem IsConvertible_kind_mismatch (conv : DataType → DataType → Bool)
    (m : DataType) (params : List YQLType) (expr : PTExpr)
    (hm : m = DataType.MAP ∨ m = DataType.SET ∨ m = DataType.LIST)
    (hne : expr.yql_type_id ≠ m)
    (hset : m = DataType.MAP → expr.yql_type_id ≠ DataType.SET) :
    IsConvertible conv expr (.mk m params) =
      Run.done (expr.yql_type_id == DataType.NULL_VALUE_TYPE) := by
  rcases hm with rfl | rfl | rfl
  · have hs := hset rfl
    cases expr with
    | leaf t =>
      simp only [PTExpr.yql_type_id] at hne hs
      simp [IsConvertible, YQLType.main, PTExpr.yql_type_id, hne, hs]
    | PTSetExpr es => simp [PTExpr.yql_type_id] at hs
    | PTMapExpr ks vs => simp [PTExpr.yql_type_id] at hne
    | PTListExpr es => simp [IsConvertible, YQLType.main, PTExpr.yql_type_id]
  · cases expr with
    | leaf t =>
      simp only [PTExpr.yql_type_id] at hne
      simp [IsConvertible, YQLType.main, PTExpr.yql_type_id, hne]
    | PTSetExpr es => simp [PTExpr.yql_type_id] at hne
    | PTMapExpr ks vs => simp [IsConvertible, YQLType.main, PTExpr.yql_type_id]
    | PTListExpr es => simp [IsConvertible, YQLType.main, PTExpr.yql_type_id]
  · cases expr with
    | leaf t =>
      simp only [PTExpr.yql_type_id] at hne
      simp [IsConvertible, YQLType.main, PTExpr.yql_type_id, hne]
    | PTSetExpr es => simp [IsConvertible, YQLType.main, PTExpr.yql_type_id]
    | PTMapExpr ks vs => simp [IsConvertible, YQLType.main, PTExpr.yql_type_id]
    | PTListExpr es => simp [PTExpr.yql_type_id] at hne

/-- Witness of C3: the NULL literal is convertible to `MAP<TEXT,INT>`, where
TEXT is the primitive kind 5 and INT the primitive kind 3. -/
theorem IsConvertible_kind_mismatch_witness :
    IsConvertible sampleConv (.leaf DataType.NULL_VALUE_TYPE)
      (.mk DataType.MAP [.mk (DataType.other 5) [], .mk (DataType.other 3) []]) =
      Run.done true :=
  IsConvertible_kind_mismatch sampleConv DataType.MAP
    [.mk (DataType.other 5) [], .mk (DataType.other 3) []] (.leaf DataType.NULL_VALUE_TYPE)
    (Or.inl rfl) (by decide) (fun _ => by decide)

/-- C4: for all key and value types `K`, `V`, `IsConvertible(SetExpr{es},
MAP<K,V>)` returns "`es` is empty": it is true iff `es = []`, so the empty set
literal is accepted as a map and every non-empty set expression is rejected,
whatever its elements are. -/
theorem IsConvertible_set_to_map (conv : DataType → DataType → Bool)
    (K V : YQLType) (es : List PTExpr) :
    IsConvertible conv (.PTSetExpr es) (.mk DataType.MAP [K, V]) = Run.done es.isEmpty ∧
    (IsConvertible conv (.PTSetExpr es) (.mk DataType.MAP [K, V]) = Run.done true ↔ es = []) ∧
    (es ≠ [] → IsConvertible conv (.PTSetExpr es) (.mk DataType.MAP [K, V]) = Run.done false) := by
  have h : IsConvertible conv (.PTSetExpr es) (.mk DataType.MAP [K, V]) = Run.done es.isEmpty := by
    simp [IsConvertible, YQLType.main, PTExpr.yql_type_id]
  rw [h]
  cases es with
  | nil => simp
  | cons x xs => simp

/-- Witness of C4: the empty set literal is accepted for `MAP<TEXT,INT>` and
the set literal `{1}` is rejected, although its element is an INT. -/
theorem IsConvertible_set_to_map_witness :
    IsConvertible sampleConv (.PTSetExpr []) (.mk DataType.MAP [sampleText, sampleInt]) =
      Run.done true ∧
    IsConvertible sampleConv (.PTSetExpr [.leaf (DataType.other 3)])
      (.mk DataType.MAP [sampleText, sampleInt]) = Run.done false :=
  ⟨(IsConvertible_set_to_map sampleConv sampleText sampleInt []).2.1.2 rfl,
   (IsConvertible_set_to_map sampleConv sampleText sampleInt [.leaf (DataType.other 3)]).2.2
     (by simp)⟩

/-- C5: against a target type whose top-level kind is TUPLE, `IsConvertible`
takes the `LOG(FATAL)` branch for every expression, a NULL-typed one included,
and so never returns `true` or `false`. -/
theorem IsConvertible_tuple_fatal (conv : DataType → DataType → Bool)
    (expr : PTExpr) (type : YQLType) (ht : type.main = DataType.TUPLE) :
    IsConvertible conv expr type = Run.fatal ∧
    ∀ b : Bool, IsConvertible conv expr type ≠ Run.done b := by
  have h : IsConvertible conv expr type = Run.fatal := by
    cases expr <;> simp [IsConvertible, ht]
  rw [h]
  exact ⟨rfl, fun b hb => by cases hb⟩

/-- Witness of C5: the NULL literal against the target `TUPLE<INT>`. -/
theorem IsConvertible_tuple_fatal_witness :
    (YQLType.mk DataType.TUPLE [.mk (DataType.other 3) []]).main = DataType.TUPLE ∧
    IsConvertible sampleConv (.leaf DataType.NULL_VALUE_TYPE)
      (.mk DataType.TUPLE [.mk (DataType.other 3) []]) = Run.fatal :=
  ⟨rfl, (IsConvertible_tuple_fatal sampleConv (.leaf DataType.NULL_VALUE_TYPE)
    (.mk DataType.TUPLE [.mk (DataType.other 3) []]) rfl).1⟩

/-- C6: for a target type whose top-level kind is none of MAP, SET, LIST,
TUPLE, and for every expression, `IsConvertible` returns the entry of the
scalar table at (target kind, expression type tag), in this order; the
members of the expression play no part. -/
theorem IsConvertible_primitive (conv : DataType → DataType → Bool)
    (expr : PTExpr) (type : YQLType)
    (hmap : type.main ≠ DataType.MAP) (hset : type.main ≠ DataType.SET)
    (hlist : type.main ≠ DataType.LIST) (htuple : type.main ≠ DataType.TUPLE) :
    IsConvertible conv expr type = Run.done (conv type.main expr.yql_type_id) := by
  cases expr <;> simp only [IsConvertible]

/-- Witness of C6: a set expression against the primitive target INT (kind 3)
yields the table entry at (INT, SET), which the sample table has `false`. -/
theorem IsConvertible_primitive_witness :
    IsConvertible sampleConv (.PTSetExpr [.leaf (DataType.other 3)])
      (.mk (DataType.other 3) []) = Run.done (sampleConv (DataType.other 3) DataType.SET) ∧
    IsConvertible sampleConv (.PTSetExpr [.leaf (DataType.other 3)])
      (.mk (DataType.other 3) []) = Run.done false :=
  ⟨IsConvertible_primitive sampleConv (.PTSetExpr [.leaf (DataType.other 3)])
      (.mk (DataType.other 3) []) (by decide) (by decide) (by decide) (by decide),
   by decide⟩

/-! ## Properties of `LookupTable` -/

/-- A name that has a namespace, or gets one from a non-empty current
keyspace, passes the namespace check: `LookupTable` continues with the
qualified name. -/
theorem LookupTable_eq_resolved (env : Env) (ctx : SemContext) (name : YBTableName)
    (out : LookupOut) (write_only : Bool) (loc : YBLocation)
    (hns : name.has_namespace = true ∨ env.CurrentKeyspace ≠ "") :
    LookupTable env ctx name out write_only loc =
      LookupTable.resolved env ctx
        (if name.has_namespace then name else name.set_namespace_name env.CurrentKeyspace)
        out write_only loc := by
  unfold LookupTable
  cases h : name.has_namespace with
  | true => simp
  | false =>
    have hks : env.CurrentKeyspace ≠ "" := by
      rcases hns with h1 | h1
      · rw [h] at h1; cases h1
      · exact h1
    simp [hks]

/-- One iteration of the column loop: a populated descriptor slot under the
column name aborts; otherwise element `idx` is initialised, the slot is
filled and the loop goes on with `idx + 1`. -/
theorem LookupTable_loop_cons (env : Env) (schema : YBSchema) (nk nh : Nat)
    (col : YBColumnSchema) (todo : List YBColumnSchema) (idx : Nat) (symtab : SymTab)
    (tc : List ColumnDesc) :
    LookupTable.loop env schema nk nh (col :: todo) idx symtab tc =
      if (symtab.subscript col.name).column_desc_.isSome then Run.fatal
      else
        LookupTable.loop env schema nk nh todo (idx + 1)
          (symtab.store col.name
            { symtab.subscript col.name with
              column_desc_ := some (ColumnDesc.unset.Init idx (schema.ColumnId idx)
                (decide (idx < nh)) (decide (idx < nk)) col.is_static col.is_counter col.type
                (env.ToInternalDataType col.type)) })
          (tc.set idx (ColumnDesc.unset.Init idx (schema.ColumnId idx)
            (decide (idx < nh)) (decide (idx < nk)) col.is_static col.is_counter col.type
            (env.ToInternalDataType col.type))) := by
  by_cases hc : (symtab.subscript col.name).column_desc_.isSome = true
  · simp [LookupTable.loop, MapSymbol_ColumnDesc, hc]
  · simp [LookupTable.loop, MapSymbol_ColumnDesc, hc, ColumnDesc.Init]

/-- The column loop is never left with a failure status: the descriptor
overload of `MapSymbol` returns `OK` or does not return. -/
theorem LookupTable_loop_status (env : Env) (schema : YBSchema) (nk nh : Nat)
    (todo : List YBColumnSchema) (idx : Nat) (symtab : SymTab) (tc : List ColumnDesc)
    (st : Status) (r : SymTab × List ColumnDesc)
    (h : LookupTable.loop env schema nk nh todo idx symtab tc = Run.done (st, r)) :
    st = Status.OK := by
  induction todo generalizing idx symtab tc with
  | nil =>
    simp only [LookupTable.loop] at h
    injection h with h
    injection h with h1 _
    exact h1.symm
  | cons col todo ih =>
    rw [LookupTable_loop_cons] at h
    split at h
    · cases h
    · exact ih _ _ _ h

/-- After the namespace check, the failure `SYSTEM_NAMESPACE_READONLY` is
returned exactly by the policy check. -/
theorem errorCode_resolved_readonly (env : Env) (ctx : SemContext) (name : YBTableName)
    (out : LookupOut) (write_only : Bool) (loc : YBLocation) :
    errorCode (LookupTable.resolved env ctx name out write_only loc) =
        some ErrorCode.SYSTEM_NAMESPACE_READONLY ↔
      (env.is_system name = true ∧ write_only = true ∧
        env.FLAGS_yb_system_namespace_readonly = true) := by
  unfold LookupTable.resolved
  by_cases hc : (env.is_system name && write_only &&
      env.FLAGS_yb_system_namespace_readonly) = true
  · have hc2 := hc
    simp only [Bool.and_eq_true] at hc2
    simp [hc, errorCode, hc2.1.1, hc2.1.2, hc2.2]
  · have hc3 : ¬ (env.is_system name = true ∧ write_only = true ∧
        env.FLAGS_yb_system_namespace_readonly = true) := by
      intro h3
      apply hc
      simp [h3.1, h3.2.1, h3.2.2]
    simp only [hc, if_false, hc3, iff_false]
    cases hg : (GetTableDesc env ctx name).1 with
    | none => simp [errorCode]
    | some table =>
      simp only []
      cases hl : LookupTable.loop env table.schema table.schema.num_key_columns
          table.schema.num_hash_key_columns table.schema.columns 0
          (GetTableDesc env ctx name).2.symtab_
          (resize out.table_columns table.schema.num_columns) with
      | done r =>
        obtain ⟨st, r2⟩ := r
        have hst := LookupTable_loop_status _ _ _ _ _ _ _ _ _ _ hl
        subst hst
        simp [errorCode]
      | fatal => simp [errorCode]
      | undefined => simp [errorCode]

/-- The call `resize(n)` leaves a vector of `n` elements. -/
theorem resize_length (v : List ColumnDesc) (n : Nat) : (resize v n).length = n := by
  simp only [resize, List.length_append, List.length_take, List.length_replicate]
  omega

/-- Storing under one name leaves the entry that `symtab_[other]` refers to
unchanged. -/
theorem SymTab.subscript_store_ne (symtab : SymTab) (name other : String) (e : SymbolEntry)
    (h : other ≠ name) : (symtab.store name e).subscript other = symtab.subscript other := by
  simp [SymTab.subscript, SymTab.store, h]

/-- A name whose entry, if any, has a null descriptor slot: `symtab_[name]`
has a null descriptor slot. -/
theorem SymTab.subscript_column_desc_none (symtab : SymTab) (name : String)
    (h : ∀ e, symtab name = some e → e.column_desc_ = none) :
    (symtab.subscript name).column_desc_ = none := by
  unfold SymTab.subscript
  cases hs : symtab name with
  | none => rfl
  | some e => exact h e hs

/-- The column loop on columns with pairwise distinct names, none of which has
a descriptor in the symbol table: it ends with `OK`, keeps the length of
`*table_columns` and the elements before `idx`, and element `idx + k` is the
descriptor initialised from the `k`-th remaining column. -/
theorem LookupTable_loop_columns (env : Env) (schema : YBSchema) (nk nh : Nat)
    (todo : List YBColumnSchema) (idx : Nat) (symtab : SymTab) (tc : List ColumnDesc)
    (hdistinct : (todo.map (fun c => c.name)).Nodup)
    (hfresh : ∀ col ∈ todo, (symtab.subscript col.name).column_desc_ = none)
    (hlen : idx + todo.length ≤ tc.length) :
    ∃ symtab1 tc1,
      LookupTable.loop env schema nk nh todo idx symtab tc = Run.done (Status.OK, symtab1, tc1) ∧
      tc1.length = tc.length ∧
      (∀ j, j < idx → tc1[j]? = tc[j]?) ∧
      (∀ k col, todo[k]? = some col →
        tc1[idx + k]? = some (ColumnDesc.unset.Init (idx + k) (schema.ColumnId (idx + k))
          (decide (idx + k < nh)) (decide (idx + k < nk)) col.is_static col.is_counter col.type
          (env.ToInternalDataType col.type))) := by
  induction todo generalizing idx symtab tc with
  | nil =>
    refine ⟨symtab, tc, by simp [LookupTable.loop], rfl, fun _ _ => rfl, ?_⟩
    intro k col hk
    simp at hk
  | cons c todo ih =>
    have hc : (symtab.subscript c.name).column_desc_.isSome = false := by
      rw [hfresh c (List.mem_cons_self c todo)]; rfl
    rw [LookupTable_loop_cons]
    simp only [hc, Bool.false_eq_true, if_false]
    rw [List.map_cons, List.nodup_cons] at hdistinct
    have hlen2 : idx + 1 + todo.length ≤ (tc.set idx (ColumnDesc.unset.Init idx
        (schema.ColumnId idx) (decide (idx < nh)) (decide (idx < nk)) c.is_static c.is_counter
        c.type (env.ToInternalDataType c.type))).length := by
      rw [List.length_set]
      simp only [List.length_cons] at hlen
      omega
    have hfresh2 : ∀ col ∈ todo,
        ((symtab.store c.name
            { symtab.subscript c.name with
              column_desc_ := some (ColumnDesc.unset.Init idx (schema.ColumnId idx)
                (decide (idx < nh)) (decide (idx < nk)) c.is_static c.is_counter c.type
                (env.ToInternalDataType c.type)) }).subscript col.name).column_desc_ = none := by
      intro col hcol
      have hne : col.name ≠ c.name := by
        intro heq
        apply hdistinct.1
        rw [← heq]
        exact List.mem_map_of_mem (fun c => c.name) hcol
      rw [SymTab.subscript_store_ne _ _ _ _ hne]
      exact hfresh col (List.mem_cons_of_mem c hcol)
    obtain ⟨symtab1, tc1, hrun, hl, hbefore, hbuilt⟩ :=
      ih (idx + 1) _ _ hdistinct.2 hfresh2 hlen2
    refine ⟨symtab1, tc1, hrun, ?_, ?_, ?_⟩
    · rw [hl, List.length_set]
    · intro j hj
      rw [hbefore j (by omega), List.getElem?_set_ne (by omega)]
    · intro k col hk
      cases k with
      | zero =>
        simp only [List.getElem?_cons_zero, Option.some.injEq] at hk
        subst hk
        have hidx : idx < tc.length := by
          simp only [List.length_cons] at hlen
          omega
        rw [Nat.add_zero, hbefore idx (by omega), List.getElem?_set_self hidx]
      | succ k =>
        simp only [List.getElem?_cons_succ] at hk
        have := hbuilt k col hk
        rw [show idx + (k + 1) = idx + 1 + k by omega]
        exact this

/-- The symbol table is not touched by `GetTableDesc`. -/
theorem GetTableDesc_symtab (env : Env) (ctx : SemContext) (name : YBTableName) :
    (GetTableDesc env ctx name).2.symtab_ = ctx.symtab_ := by
  unfold GetTableDesc
  cases (env.GetTableDesc name).1 <;> cases (env.GetTableDesc name).2 <;> rfl

/-- The handle returned by `GetTableDesc` is the one the catalog returns. -/
theorem GetTableDesc_table (env : Env) (ctx : SemContext) (name : YBTableName) :
    (GetTableDesc env ctx name).1 = (env.GetTableDesc name).1 := by
  unfold GetTableDesc
  cases (env.GetTableDesc name).1 <;> rfl

/-! ## Claims on `LookupTable` -/

/-- C7: for a table name without namespace and an empty current keyspace,
`LookupTable` returns the error `NO_NAMESPACE_USED` at `loc`, for every
write intent, policy flag, catalog and context; the context and the output
variables are left as they were. -/
theorem LookupTable_no_namespace (env : Env) (ctx : SemContext) (name : YBTableName)
    (out : LookupOut) (write_only : Bool) (loc : YBLocation)
    (hns : name.has_namespace = false) (hks : env.CurrentKeyspace = "") :
    LookupTable env ctx name out write_only loc =
      Run.done (Status.Error loc ErrorCode.NO_NAMESPACE_USED, ctx, out) := by
  simp [LookupTable, hns, hks]

/-- Witness of C7: the unqualified name `t` with no keyspace selected, in a
catalog that would hold `ks.t`. -/
theorem LookupTable_no_namespace_witness :
    errorCode (LookupTable (sampleEnv "") sampleCtx ⟨"", "t"⟩ sampleOut false ⟨1, 1⟩) =
      some ErrorCode.NO_NAMESPACE_USED := by
  rw [LookupTable_no_namespace (sampleEnv "") sampleCtx ⟨"", "t"⟩ sampleOut false ⟨1, 1⟩
    (by decide) rfl]
  rfl

/-- C8: for a name that has a namespace or can take it from a non-empty
current keyspace, `LookupTable` fails with `SYSTEM_NAMESPACE_READONLY` iff the
qualified name is a system table, the call has write intent and the read-only
flag is on, whatever the catalog holds; when it does, the error is at `loc`,
the context is untouched (no catalog call) and only `*is_system` is written. -/
theorem LookupTable_readonly_iff (env : Env) (ctx : SemContext) (name : YBTableName)
    (out : LookupOut) (write_only : Bool) (loc : YBLocation)
    (hns : name.has_namespace = true ∨ env.CurrentKeyspace ≠ "") :
    (errorCode (LookupTable env ctx name out write_only loc) =
        some ErrorCode.SYSTEM_NAMESPACE_READONLY ↔
      (env.is_system
          (if name.has_namespace then name else name.set_namespace_name env.CurrentKeyspace)
          = true ∧
        write_only = true ∧ env.FLAGS_yb_system_namespace_readonly = true)) ∧
    ((env.is_system
          (if name.has_namespace then name else name.set_namespace_name env.CurrentKeyspace)
          = true ∧
        write_only = true ∧ env.FLAGS_yb_system_namespace_readonly = true) →
      LookupTable env ctx name out write_only loc =
        Run.done (Status.Error loc ErrorCode.SYSTEM_NAMESPACE_READONLY, ctx,
          { out with is_system := true })) := by
  rw [LookupTable_eq_resolved env ctx name out write_only loc hns]
  refine ⟨errorCode_resolved_readonly env ctx _ out write_only loc, ?_⟩
  intro h
  simp [LookupTable.resolved, h.1, h.2.1, h.2.2]

/-- Witness of C8: writing to `system.peers`, which the catalog holds, with the
flag on fails with `SYSTEM_NAMESPACE_READONLY` and makes no catalog call. -/
theorem LookupTable_readonly_iff_witness :
    errorCode (LookupTable (sampleEnv "ks") sampleCtx ⟨"system", "peers"⟩ sampleOut true ⟨1, 1⟩)
      = some ErrorCode.SYSTEM_NAMESPACE_READONLY ∧
    ((sampleEnv "ks").GetTableDesc ⟨"system", "peers"⟩).1.isSome = true :=
  ⟨(LookupTable_readonly_iff (sampleEnv "ks") sampleCtx ⟨"system", "peers"⟩ sampleOut true
      ⟨1, 1⟩ (Or.inl (by decide))).1.2 ⟨by decide, rfl, rfl⟩,
   by decide⟩

/-- C9: when the namespace check and the policy check pass and the catalog
returns nothing for the qualified name, `LookupTable` fails with
`TABLE_NOT_FOUND` at `loc`; the call is recorded, `*is_system` and `*table`
are written, and nothing else changes. -/
theorem LookupTable_table_not_found (env : Env) (ctx : SemContext) (name : YBTableName)
    (out : LookupOut) (write_only : Bool) (loc : YBLocation)
    (hns : name.has_namespace = true ∨ env.CurrentKeyspace ≠ "")
    (hpolicy : ¬ (env.is_system
          (if name.has_namespace then name else name.set_namespace_name env.CurrentKeyspace)
          = true ∧
        write_only = true ∧ env.FLAGS_yb_system_namespace_readonly = true))
    (habsent : (env.GetTableDesc
        (if name.has_namespace then name else name.set_namespace_name env.CurrentKeyspace)).1
          = none) :
    LookupTable env ctx name out write_only loc =
      Run.done (Status.Error loc ErrorCode.TABLE_NOT_FOUND,
        { ctx with catalog_calls := ctx.catalog_calls ++
            [if name.has_namespace then name else name.set_namespace_name env.CurrentKeyspace] },
        { out with
            is_system := env.is_system
              (if name.has_namespace then name else name.set_namespace_name env.CurrentKeyspace),
            table := none }) := by
  rw [LookupTable_eq_resolved env ctx name out write_only loc hns]
  generalize (if name.has_namespace then name
    else name.set_namespace_name env.CurrentKeyspace) = q at hpolicy habsent ⊢
  have hc : (env.is_system q && write_only && env.FLAGS_yb_system_namespace_readonly) = false := by
    cases h1 : env.is_system q <;> cases h2 : write_only <;>
      cases h3 : env.FLAGS_yb_system_namespace_readonly <;> simp_all
  simp [LookupTable.resolved, hc, GetTableDesc, habsent]

/-- Witness of C9: the unqualified name `nope` in keyspace `ks`, which the
catalog does not hold, read-only. -/
theorem LookupTable_table_not_found_witness :
    errorCode (LookupTable (sampleEnv "ks") sampleCtx ⟨"", "nope"⟩ sampleOut false ⟨2, 7⟩)
      = some ErrorCode.TABLE_NOT_FOUND := by
  rw [LookupTable_table_not_found (sampleEnv "ks") sampleCtx ⟨"", "nope"⟩ sampleOut false ⟨2, 7⟩
    (Or.inr (by decide)) (by decide) rfl]
  rfl

/-- C10: when the namespace and policy checks pass, the catalog returns a
table whose `N` column names are pairwise distinct and none of them holds a
resolved descriptor in the symbol table, `LookupTable` returns `OK` with
exactly `N` descriptors in ordinal order: descriptor `i` has index `i`, the
catalog id, static flag, counter flag, declared type and internal type of
schema column `i`, `is_hash = (i < num_hash_key_columns)` and `is_primary =
(i < num_key_columns)`; the two returned counts are those of the schema, and
the table is returned and made the current table. -/
theorem LookupTable_columns (env : Env) (ctx : SemContext) (name : YBTableName)
    (out : LookupOut) (write_only : Bool) (loc : YBLocation) (table : YBTable)
    (hns : name.has_namespace = true ∨ env.CurrentKeyspace ≠ "")
    (hpolicy : ¬ (env.is_system
          (if name.has_namespace then name else name.set_namespace_name env.CurrentKeyspace)
          = true ∧
        write_only = true ∧ env.FLAGS_yb_system_namespace_readonly = true))
    (hfound : (env.GetTableDesc
        (if name.has_namespace then name else name.set_namespace_name env.CurrentKeyspace)).1
          = some table)
    (hdistinct : (table.schema.columns.map (fun c => c.name)).Nodup)
    (hfresh : ∀ col ∈ table.schema.columns, ∀ e, ctx.symtab_ col.name = some e →
        e.column_desc_ = none) :
    ∃ ctx1 out1,
      LookupTable env ctx name out write_only loc = Run.done (Status.OK, ctx1, out1) ∧
      out1.table_columns.length = table.schema.num_columns ∧
      (∀ i col, table.schema.columns[i]? = some col →
        ∃ d, out1.table_columns[i]? = some d ∧
          d.index = i ∧ d.id = table.schema.ColumnId i ∧
          d.is_hash = decide (i < table.schema.num_hash_key_columns) ∧
          d.is_primary = decide (i < table.schema.num_key_columns) ∧
          d.is_static = col.is_static ∧ d.is_counter = col.is_counter ∧
          d.yql_type = col.type ∧ d.internal_type = env.ToInternalDataType col.type) ∧
      out1.num_key_columns = table.schema.num_key_columns ∧
      out1.num_hash_key_columns = table.schema.num_hash_key_columns ∧
      out1.table = some table ∧ ctx1.current_table_ = some table := by
  rw [LookupTable_eq_resolved env ctx name out write_only loc hns]
  generalize (if name.has_namespace then name
    else name.set_namespace_name env.CurrentKeyspace) = q at hpolicy hfound ⊢
  have hc : (env.is_system q && write_only && env.FLAGS_yb_system_namespace_readonly) = false := by
    cases h1 : env.is_system q <;> cases h2 : write_only <;>
      cases h3 : env.FLAGS_yb_system_namespace_readonly <;> simp_all
  have hg : (GetTableDesc env ctx q).1 = some table := by
    rw [GetTableDesc_table, hfound]
  obtain ⟨symtab1, tc1, hrun, hl, _, hbuilt⟩ :=
    LookupTable_loop_columns env table.schema table.schema.num_key_columns
      table.schema.num_hash_key_columns table.schema.columns 0
      (GetTableDesc env ctx q).2.symtab_ (resize out.table_columns table.schema.num_columns)
      hdistinct
      (by
        intro col hcol
        rw [GetTableDesc_symtab]
        exact SymTab.subscript_column_desc_none _ _ (hfresh col hcol))
      (by rw [resize_length]; simp [YBSchema.num_columns])
  refine ⟨{ (GetTableDesc env ctx q).2 with current_table_ := some table, symtab_ := symtab1 },
    { out with is_system := env.is_system q, table := some table,
               num_key_columns := table.schema.num_key_columns,
               num_hash_key_columns := table.schema.num_hash_key_columns,
               table_columns := tc1 }, ?_, ?_, ?_, rfl, rfl, rfl, rfl⟩
  · simp only [LookupTable.resolved, hc, hg, hrun]
    rfl
  · simp only [hl, resize_length]
  · intro i col hi
    have h := hbuilt i col hi
    simp only [Nat.zero_add] at h
    exact ⟨_, h, rfl, rfl, rfl, rfl, rfl, rfl, rfl, rfl⟩

/-- Witness of C10: resolving `t` in keyspace `ks` against the sample catalog
returns `OK`, three descriptors and the key counts 2 and 1. -/
theorem LookupTable_columns_witness :
    ∃ ctx1 out1,
      LookupTable (sampleEnv "ks") sampleCtx ⟨"", "t"⟩ sampleOut false ⟨3, 1⟩ =
        Run.done (Status.OK, ctx1, out1) ∧
      out1.table_columns.length = 3 ∧
      out1.num_key_columns = 2 ∧ out1.num_hash_key_columns = 1 := by
  obtain ⟨ctx1, out1, h, hl, _, hk, hh, _, _⟩ :=
    LookupTable_columns (sampleEnv "ks") sampleCtx ⟨"", "t"⟩ sampleOut false ⟨3, 1⟩
      ⟨sampleSchema⟩ (Or.inr (by decide)) (by decide) rfl (by decide)
      (by intro col _ e he; cases he)
  exact ⟨ctx1, out1, h, hl, hk, hh⟩

/-! ## Properties of the symbol table -/

theorem SymTab.subscript_of_some (symtab : SymTab) (name : String) (e : SymbolEntry)
    (h : symtab name = some e) : symtab.subscript name = e := by
  simp [SymTab.subscript, h]

theorem SymTab.subscript_of_none (symtab : SymTab) (name : String)
    (h : symtab name = none) : symtab.subscript name = SymbolEntry.empty := by
  simp [SymTab.subscript, h]

theorem SymTab.store_same (symtab : SymTab) (name : String) (e : SymbolEntry) :
    (symtab.store name e) name = some e := by
  simp [SymTab.store]

theorem SymTab.store_other (symtab : SymTab) (name other : String) (e : SymbolEntry)
    (h : other ≠ name) : (symtab.store name e) other = symtab other := by
  simp [SymTab.store, h]

/-- Evaluating `symtab_[name]` for a name that has an entry does not change
the map. -/
theorem SymTab.touch_of_some (symtab : SymTab) (name : String) (e : SymbolEntry)
    (h : symtab name = some e) : symtab.touch name = symtab := by
  funext n
  unfold SymTab.touch SymTab.store
  by_cases hn : n = name
  · subst hn; simp [SymTab.subscript, h]
  · simp [hn]

/-- A slot of `symtab_[name]` is populated exactly when the name has an entry
with that slot populated. -/
theorem SymTab.subscript_isSome_iff {α : Type} (symtab : SymTab) (name : String)
    (slot : SymbolEntry → Option α) (hempty : slot SymbolEntry.empty = none) :
    (slot (symtab.subscript name)).isSome = true ↔
      ∃ e x, symtab name = some e ∧ slot e = some x := by
  unfold SymTab.subscript
  cases hs : symtab name with
  | none => simp [hempty]
  | some e =>
    simp only [Option.getD_some, Option.isSome_iff_exists]
    constructor
    · rintro ⟨x, hx⟩; exact ⟨e, x, rfl, hx⟩
    · rintro ⟨e1, x, he, hx⟩
      injection he with he
      subst he
      exact ⟨x, hx⟩

theorem SymTab.subscript_store_same (symtab : SymTab) (name : String) (e : SymbolEntry) :
    (symtab.store name e).subscript name = e := by
  simp [SymTab.subscript, SymTab.store]

/-- Evaluating `symtab_[name]` does not change what `symtab_[n]` refers to. -/
theorem SymTab.subscript_touch (symtab : SymTab) (name n : String) :
    (symtab.touch name).subscript n = symtab.subscript n := by
  unfold SymTab.touch
  by_cases hn : n = name
  · subst hn; rw [SymTab.subscript_store_same]
  · rw [SymTab.subscript_store_ne _ _ _ _ hn]

theorem SymTab.touch_same (symtab : SymTab) (name : String) :
    (symtab.touch name) name = some (symtab.subscript name) := by
  simp [SymTab.touch, SymTab.store]

/-- The lookup `GetColumnDefinition` reads the column-definition slot of what
`symtab_[name]` refers to. -/
theorem GetColumnDefinition_eq_subscript (ctx : SemContext) (name : String) :
    GetColumnDefinition ctx name = (ctx.symtab_.subscript name).column_ := by
  unfold GetColumnDefinition SeekSymbol SymTab.subscript
  cases ctx.symtab_ name <;> rfl

theorem MapSymbol_PTColumnDefinition_of_populated (symtab : SymTab) (name : String)
    (entry : PTColumnDefinition) (h : (symtab.subscript name).column_.isSome = true) :
    MapSymbol_PTColumnDefinition symtab name entry =
      (Status.Error entry.loc ErrorCode.DUPLICATE_COLUMN, symtab.touch name) := by
  simp [MapSymbol_PTColumnDefinition, h]

theorem MapSymbol_PTColumnDefinition_of_empty (symtab : SymTab) (name : String)
    (entry : PTColumnDefinition) (h : (symtab.subscript name).column_ = none) :
    MapSymbol_PTColumnDefinition symtab name entry =
      (Status.OK, symtab.store name { symtab.subscript name with column_ := some entry }) := by
  simp [MapSymbol_PTColumnDefinition, h]

theorem MapSymbol_PTAlterColumnDefinition_of_populated (symtab : SymTab) (name : String)
    (entry : PTAlterColumnDefinition) (h : (symtab.subscript name).alter_column_.isSome = true) :
    MapSymbol_PTAlterColumnDefinition symtab name entry =
      (Status.Error entry.loc ErrorCode.DUPLICATE_COLUMN, symtab.touch name) := by
  simp [MapSymbol_PTAlterColumnDefinition, h]

theorem MapSymbol_PTAlterColumnDefinition_of_empty (symtab : SymTab) (name : String)
    (entry : PTAlterColumnDefinition) (h : (symtab.subscript name).alter_column_ = none) :
    MapSymbol_PTAlterColumnDefinition symtab name entry =
      (Status.OK,
        symtab.store name { symtab.subscript name with alter_column_ := some entry }) := by
  simp [MapSymbol_PTAlterColumnDefinition, h]

theorem MapSymbol_PTCreateTable_of_populated (symtab : SymTab) (name : String)
    (entry : PTCreateTable) (h : (symtab.subscript name).create_table_.isSome = true) :
    MapSymbol_PTCreateTable symtab name entry =
      (Status.Error entry.loc ErrorCode.DUPLICATE_TABLE, symtab.touch name) := by
  simp [MapSymbol_PTCreateTable, h]

theorem MapSymbol_PTCreateTable_of_empty (symtab : SymTab) (name : String)
    (entry : PTCreateTable) (h : (symtab.subscript name).create_table_ = none) :
    MapSymbol_PTCreateTable symtab name entry =
      (Status.OK,
        symtab.store name { symtab.subscript name with create_table_ := some entry }) := by
  simp [MapSymbol_PTCreateTable, h]

/-- A slot of `symtab_[name]` is null exactly when every entry of the name
has that slot null. -/
theorem SymTab.subscript_eq_none_iff {α : Type} (symtab : SymTab) (name : String)
    (slot : SymbolEntry → Option α) (hempty : slot SymbolEntry.empty = none) :
    slot (symtab.subscript name) = none ↔ ∀ e, symtab name = some e → slot e = none := by
  unfold SymTab.subscript
  cases hs : symtab name with
  | none => simp [hempty]
  | some e => simp

/-! ## Claims on `MapSymbol` -/

/-- C13: inserting a resolved column descriptor under a name whose descriptor
slot is populated takes the `LOG(FATAL)` path: the call returns nothing,
neither success nor an error status, and stores nothing.  Under a name whose
descriptor slot is empty (no entry, or an entry with a null slot) the insert
returns `OK`, stores the descriptor in that slot and changes no other slot
and no other name. -/
theorem MapSymbol_ColumnDesc_fatal_or_stores (symtab : SymTab) (name : String)
    (entry : ColumnDesc) :
    ((∃ e d, symtab name = some e ∧ e.column_desc_ = some d) →
      MapSymbol_ColumnDesc symtab name entry = Run.fatal ∧
      ∀ r, MapSymbol_ColumnDesc symtab name entry ≠ Run.done r) ∧
    ((∀ e, symtab name = some e → e.column_desc_ = none) →
      ∃ symtab1,
        MapSymbol_ColumnDesc symtab name entry = Run.done (Status.OK, symtab1) ∧
        symtab1 name =
          some { symtab.subscript name with column_desc_ := some entry } ∧
        ∀ n, n ≠ name → symtab1 n = symtab n) := by
  constructor
  · intro h
    have hs : (symtab.subscript name).column_desc_.isSome = true :=
      (SymTab.subscript_isSome_iff symtab name (fun e => e.column_desc_) rfl).2 h
    have hf : MapSymbol_ColumnDesc symtab name entry = Run.fatal := by
      simp [MapSymbol_ColumnDesc, hs]
    rw [hf]
    exact ⟨rfl, fun r hr => by cases hr⟩
  · intro h
    have hs : (symtab.subscript name).column_desc_ = none :=
      SymTab.subscript_column_desc_none symtab name h
    refine ⟨_, ?_, SymTab.store_same _ _ _, fun n hn => SymTab.store_other _ _ _ _ hn⟩
    simp [MapSymbol_ColumnDesc, hs]

/-- Witness of C13: in a context where `c` holds only a column definition the
descriptor insert under `c` succeeds, and a second descriptor insert under
`c` takes the fatal path. -/
theorem MapSymbol_ColumnDesc_fatal_or_stores_witness :
    (∃ symtab1,
      MapSymbol_ColumnDesc sampleDefCtx.symtab_ "c" ColumnDesc.unset =
        Run.done (Status.OK, symtab1) ∧
      MapSymbol_ColumnDesc symtab1 "c" ColumnDesc.unset = Run.fatal) := by
  obtain ⟨symtab1, h1, h2, _⟩ :=
    (MapSymbol_ColumnDesc_fatal_or_stores sampleDefCtx.symtab_ "c" ColumnDesc.unset).2
      (by
        intro e he
        simp only [sampleDefCtx, if_true, Option.some.injEq] at he
        rw [← he])
  exact ⟨symtab1, h1,
    ((MapSymbol_ColumnDesc_fatal_or_stores symtab1 "c" ColumnDesc.unset).1
      ⟨_, _, h2, rfl⟩).1⟩

/-- Counterexample to C14 as stated: `c` already holds the column definition
`sampleDef 0`; after inserting `sampleDef 1` and then `sampleDef 2` under `c`
the second insert fails with `DUPLICATE_COLUMN`, but so does the first, and
the lookup of `c` returns `sampleDef 0`, not `sampleDef 1`. -/
theorem MapSymbolTwice_lookup_counterexample :
    (MapSymbolTwice sampleDefCtx.symtab_ "c" (sampleDef 1) "c" (sampleDef 2)).2.1 =
      Status.Error (sampleDef 2).loc ErrorCode.DUPLICATE_COLUMN ∧
    GetColumnDefinition
      { sampleDefCtx with symtab_ :=
          (MapSymbolTwice sampleDefCtx.symtab_ "c" (sampleDef 1) "c" (sampleDef 2)).2.2 } "c" =
      some (sampleDef 0) ∧
    GetColumnDefinition
      { sampleDefCtx with symtab_ :=
          (MapSymbolTwice sampleDefCtx.symtab_ "c" (sampleDef 1) "c" (sampleDef 2)).2.2 } "c" ≠
      some (sampleDef 1) := by
  decide

/-- C14 (amended): from any symbol table, inserting the column definition
`d1` under `n` and then `d2` under the same `n` makes the second insert fail
with `DUPLICATE_COLUMN`; the lookup of `n` then returns `d1` when `n` held no
column definition before, and the definition `n` held before otherwise.
Inserting `d1` under `n1` and `d2` under a different `n2`, neither holding a
column definition before, makes both inserts succeed, after which
`GetColumnDefinition(n1) = d1` and `GetColumnDefinition(n2) = d2`. -/
theorem MapSymbolTwice_column_definitions (ctx : SemContext) (n n1 n2 : String)
    (d1 d2 : PTColumnDefinition) :
    (MapSymbolTwice ctx.symtab_ n d1 n d2).2.1 =
        Status.Error d2.loc ErrorCode.DUPLICATE_COLUMN ∧
    ((∀ e, ctx.symtab_ n = some e → e.column_ = none) →
      (MapSymbolTwice ctx.symtab_ n d1 n d2).1 = Status.OK ∧
      GetColumnDefinition
        { ctx with symtab_ := (MapSymbolTwice ctx.symtab_ n d1 n d2).2.2 } n = some d1) ∧
    (∀ e d0, ctx.symtab_ n = some e → e.column_ = some d0 →
      (MapSymbolTwice ctx.symtab_ n d1 n d2).1 =
        Status.Error d1.loc ErrorCode.DUPLICATE_COLUMN ∧
      GetColumnDefinition
        { ctx with symtab_ := (MapSymbolTwice ctx.symtab_ n d1 n d2).2.2 } n = some d0) ∧
    (n1 ≠ n2 →
      (∀ e, ctx.symtab_ n1 = some e → e.column_ = none) →
      (∀ e, ctx.symtab_ n2 = some e → e.column_ = none) →
      (MapSymbolTwice ctx.symtab_ n1 d1 n2 d2).1 = Status.OK ∧
      (MapSymbolTwice ctx.symtab_ n1 d1 n2 d2).2.1 = Status.OK ∧
      GetColumnDefinition
        { ctx with symtab_ := (MapSymbolTwice ctx.symtab_ n1 d1 n2 d2).2.2 } n1 = some d1 ∧
      GetColumnDefinition
        { ctx with symtab_ := (MapSymbolTwice ctx.symtab_ n1 d1 n2 d2).2.2 } n2 = some d2) := by
  have hfresh : (∀ e, ctx.symtab_ n = some e → e.column_ = none) →
      MapSymbol_PTColumnDefinition ctx.symtab_ n d1 =
        (Status.OK, ctx.symtab_.store n { ctx.symtab_.subscript n with column_ := some d1 }) :=
    fun h => MapSymbol_PTColumnDefinition_of_empty _ _ _
      ((SymTab.subscript_eq_none_iff _ _ (fun e => e.column_) rfl).2 h)
  have hheld : ∀ e d0, ctx.symtab_ n = some e → e.column_ = some d0 →
      MapSymbol_PTColumnDefinition ctx.symtab_ n d1 =
        (Status.Error d1.loc ErrorCode.DUPLICATE_COLUMN, ctx.symtab_.touch n) :=
    fun e d0 he hd => MapSymbol_PTColumnDefinition_of_populated _ _ _
      ((SymTab.subscript_isSome_iff _ _ (fun e => e.column_) rfl).2 ⟨e, d0, he, hd⟩)
  refine ⟨?_, ?_, ?_, ?_⟩
  · -- after the first insert the slot of `n` is populated in both cases
    have hpop : ((MapSymbol_PTColumnDefinition ctx.symtab_ n d1).2.subscript n).column_.isSome
        = true := by
      cases hc : (ctx.symtab_.subscript n).column_ with
      | none =>
        rw [MapSymbol_PTColumnDefinition_of_empty _ _ _ hc]
        simp [SymTab.subscript_store_same]
      | some d0 =>
        rw [MapSymbol_PTColumnDefinition_of_populated _ _ _ (by rw [hc]; rfl)]
        simp [SymTab.subscript_touch, hc]
    simp only [MapSymbolTwice]
    rw [MapSymbol_PTColumnDefinition_of_populated _ _ _ hpop]
  · intro h
    simp only [MapSymbolTwice, GetColumnDefinition_eq_subscript]
    rw [hfresh h]
    refine ⟨rfl, ?_⟩
    rw [MapSymbol_PTColumnDefinition_of_populated _ _ _
      (by simp [SymTab.subscript_store_same])]
    simp [SymTab.subscript_touch, SymTab.subscript_store_same]
  · intro e d0 he hd
    simp only [MapSymbolTwice, GetColumnDefinition_eq_subscript]
    rw [hheld e d0 he hd]
    refine ⟨rfl, ?_⟩
    have hsub : (ctx.symtab_.subscript n).column_ = some d0 := by
      rw [SymTab.subscript_of_some _ _ _ he, hd]
    rw [MapSymbol_PTColumnDefinition_of_populated _ _ _
      (by simp [SymTab.subscript_touch, hsub])]
    simp [SymTab.subscript_touch, hsub]
  · intro hne h1 h2
    have e1 := MapSymbol_PTColumnDefinition_of_empty ctx.symtab_ n1 d1
      ((SymTab.subscript_eq_none_iff _ _ (fun e => e.column_) rfl).2 h1)
    have hsub2 : ((ctx.symtab_.store n1
        { ctx.symtab_.subscript n1 with column_ := some d1 }).subscript n2).column_ = none := by
      rw [SymTab.subscript_store_ne _ _ _ _ (Ne.symm hne)]
      exact (SymTab.subscript_eq_none_iff _ _ (fun e => e.column_) rfl).2 h2
    simp only [MapSymbolTwice, GetColumnDefinition_eq_subscript]
    rw [e1]
    simp only []
    rw [MapSymbol_PTColumnDefinition_of_empty _ _ _ hsub2]
    refine ⟨trivial, rfl, ?_, ?_⟩
    · simp only []
      rw [SymTab.subscript_store_ne _ _ _ _ hne, SymTab.subscript_store_same]
    · simp only []
      rw [SymTab.subscript_store_same]

/-- Witness of C14 (amended): on the empty symbol table, `sampleDef 1` under
`a` and `sampleDef 2` under `b` are both inserted and both found again. -/
theorem MapSymbolTwice_column_definitions_witness :
    GetColumnDefinition
      { sampleCtx with symtab_ :=
          (MapSymbolTwice sampleCtx.symtab_ "a" (sampleDef 1) "b" (sampleDef 2)).2.2 } "a" =
      some (sampleDef 1) ∧
    GetColumnDefinition
      { sampleCtx with symtab_ :=
          (MapSymbolTwice sampleCtx.symtab_ "a" (sampleDef 1) "b" (sampleDef 2)).2.2 } "b" =
      some (sampleDef 2) :=
  ((MapSymbolTwice_column_definitions sampleCtx "c" "a" "b" (sampleDef 1) (sampleDef 2)).2.2.2
    (by decide) (fun e he => by cases he) (fun e he => by cases he)).2.2

/-- C18: for each definition variant (column, alter-column, create-table),
every symbol table and every name, the insert fails iff the slot of that
variant under that name is populated; the failure is `DUPLICATE_COLUMN` for
column and alter-column definitions and `DUPLICATE_TABLE` for create-table
definitions, at the location of the new entry, and leaves the table as it
was.  The other slots of the name play no part.  A successful insert stores
the entry in that slot, keeps the other three slots of the name and every
other name. -/
theorem MapSymbol_duplicate_per_variant (symtab : SymTab) (name : String)
    (c : PTColumnDefinition) (a : PTAlterColumnDefinition) (t : PTCreateTable) :
    (((MapSymbol_PTColumnDefinition symtab name c).1 ≠ Status.OK ↔
        ∃ e x, symtab name = some e ∧ e.column_ = some x) ∧
     ((∃ e x, symtab name = some e ∧ e.column_ = some x) →
        MapSymbol_PTColumnDefinition symtab name c =
          (Status.Error c.loc ErrorCode.DUPLICATE_COLUMN, symtab)) ∧
     ((∀ e, symtab name = some e → e.column_ = none) →
        (MapSymbol_PTColumnDefinition symtab name c).1 = Status.OK ∧
        (MapSymbol_PTColumnDefinition symtab name c).2 name =
          some { symtab.subscript name with column_ := some c } ∧
        ∀ n, n ≠ name → (MapSymbol_PTColumnDefinition symtab name c).2 n = symtab n)) ∧
    (((MapSymbol_PTAlterColumnDefinition symtab name a).1 ≠ Status.OK ↔
        ∃ e x, symtab name = some e ∧ e.alter_column_ = some x) ∧
     ((∃ e x, symtab name = some e ∧ e.alter_column_ = some x) →
        MapSymbol_PTAlterColumnDefinition symtab name a =
          (Status.Error a.loc ErrorCode.DUPLICATE_COLUMN, symtab)) ∧
     ((∀ e, symtab name = some e → e.alter_column_ = none) →
        (MapSymbol_PTAlterColumnDefinition symtab name a).1 = Status.OK ∧
        (MapSymbol_PTAlterColumnDefinition symtab name a).2 name =
          some { symtab.subscript name with alter_column_ := some a } ∧
        ∀ n, n ≠ name → (MapSymbol_PTAlterColumnDefinition symtab name a).2 n = symtab n)) ∧
    (((MapSymbol_PTCreateTable symtab name t).1 ≠ Status.OK ↔
        ∃ e x, symtab name = some e ∧ e.create_table_ = some x) ∧
     ((∃ e x, symtab name = some e ∧ e.create_table_ = some x) →
        MapSymbol_PTCreateTable symtab name t =
          (Status.Error t.loc ErrorCode.DUPLICATE_TABLE, symtab)) ∧
     ((∀ e, symtab name = some e → e.create_table_ = none) →
        (MapSymbol_PTCreateTable symtab name t).1 = Status.OK ∧
        (MapSymbol_PTCreateTable symtab name t).2 name =
          some { symtab.subscript name with create_table_ := some t } ∧
        ∀ n, n ≠ name → (MapSymbol_PTCreateTable symtab name t).2 n = symtab n)) := by
  refine ⟨?_, ?_, ?_⟩
  · have hiff : (symtab.subscript name).column_.isSome = true ↔
        ∃ e x, symtab name = some e ∧ e.column_ = some x :=
      SymTab.subscript_isSome_iff symtab name (fun e => e.column_) rfl
    have hnone : (symtab.subscript name).column_ = none ↔
        ∀ e, symtab name = some e → e.column_ = none :=
      SymTab.subscript_eq_none_iff symtab name (fun e => e.column_) rfl
    refine ⟨?_, ?_, ?_⟩
    · rw [← hiff]
      by_cases hp : (symtab.subscript name).column_.isSome = true
      · rw [MapSymbol_PTColumnDefinition_of_populated _ _ _ hp]
        simp [hp]
      · have hc : (symtab.subscript name).column_ = none := by
          cases hs : (symtab.subscript name).column_ with
          | none => rfl
          | some x => rw [hs] at hp; exact absurd rfl hp
        rw [MapSymbol_PTColumnDefinition_of_empty _ _ _ hc]
        simp [hc]
    · intro h
      have hp := hiff.2 h
      obtain ⟨e, x, he, _⟩ := h
      rw [MapSymbol_PTColumnDefinition_of_populated _ _ _ hp, SymTab.touch_of_some _ _ e he]
    · intro h
      rw [MapSymbol_PTColumnDefinition_of_empty _ _ _ (hnone.2 h)]
      exact ⟨rfl, SymTab.store_same _ _ _, fun n hn => SymTab.store_other _ _ _ _ hn⟩
  · have hiff : (symtab.subscript name).alter_column_.isSome = true ↔
        ∃ e x, symtab name = some e ∧ e.alter_column_ = some x :=
      SymTab.subscript_isSome_iff symtab name (fun e => e.alter_column_) rfl
    have hnone : (symtab.subscript name).alter_column_ = none ↔
        ∀ e, symtab name = some e → e.alter_column_ = none :=
      SymTab.subscript_eq_none_iff symtab name (fun e => e.alter_column_) rfl
    refine ⟨?_, ?_, ?_⟩
    · rw [← hiff]
      by_cases hp : (symtab.subscript name).alter_column_.isSome = true
      · rw [MapSymbol_PTAlterColumnDefinition_of_populated _ _ _ hp]
        simp [hp]
      · have hc : (symtab.subscript name).alter_column_ = none := by
          cases hs : (symtab.subscript name).alter_column_ with
          | none => rfl
          | some x => rw [hs] at hp; exact absurd rfl hp
        rw [MapSymbol_PTAlterColumnDefinition_of_empty _ _ _ hc]
        simp [hc]
    · intro h
      have hp := hiff.2 h
      obtain ⟨e, x, he, _⟩ := h
      rw [MapSymbol_PTAlterColumnDefinition_of_populated _ _ _ hp, SymTab.touch_of_some _ _ e he]
    · intro h
      rw [MapSymbol_PTAlterColumnDefinition_of_empty _ _ _ (hnone.2 h)]
      exact ⟨rfl, SymTab.store_same _ _ _, fun n hn => SymTab.store_other _ _ _ _ hn⟩
  · have hiff : (symtab.subscript name).create_table_.isSome = true ↔
        ∃ e x, symtab name = some e ∧ e.create_table_ = some x :=
      SymTab.subscript_isSome_iff symtab name (fun e => e.create_table_) rfl
    have hnone : (symtab.subscript name).create_table_ = none ↔
        ∀ e, symtab name = some e → e.create_table_ = none :=
      SymTab.subscript_eq_none_iff symtab name (fun e => e.create_table_) rfl
    refine ⟨?_, ?_, ?_⟩
    · rw [← hiff]
      by_cases hp : (symtab.subscript name).create_table_.isSome = true
      · rw [MapSymbol_PTCreateTable_of_populated _ _ _ hp]
        simp [hp]
      · have hc : (symtab.subscript name).create_table_ = none := by
          cases hs : (symtab.subscript name).create_table_ with
          | none => rfl
          | some x => rw [hs] at hp; exact absurd rfl hp
        rw [MapSymbol_PTCreateTable_of_empty _ _ _ hc]
        simp [hc]
    · intro h
      have hp := hiff.2 h
      obtain ⟨e, x, he, _⟩ := h
      rw [MapSymbol_PTCreateTable_of_populated _ _ _ hp, SymTab.touch_of_some _ _ e he]
    · intro h
      rw [MapSymbol_PTCreateTable_of_empty _ _ _ (hnone.2 h)]
      exact ⟨rfl, SymTab.store_same _ _ _, fun n hn => SymTab.store_other _ _ _ _ hn⟩

/-- Witness of C18: `c` holds a column definition only; a second column
definition under `c` fails with `DUPLICATE_COLUMN`, while a create-table
definition under the same name is inserted. -/
theorem MapSymbol_duplicate_per_variant_witness :
    MapSymbol_PTColumnDefinition sampleDefCtx.symtab_ "c" (sampleDef 1) =
      (Status.Error (sampleDef 1).loc ErrorCode.DUPLICATE_COLUMN, sampleDefCtx.symtab_) ∧
    (MapSymbol_PTCreateTable sampleDefCtx.symtab_ "c" ⟨7, ⟨2, 1⟩⟩).1 = Status.OK :=
  ⟨(MapSymbol_duplicate_per_variant sampleDefCtx.symtab_ "c" (sampleDef 1) ⟨8, ⟨4, 1⟩⟩
      ⟨7, ⟨2, 1⟩⟩).1.2.1 ⟨_, sampleDef 0, rfl, rfl⟩,
   ((MapSymbol_duplicate_per_variant sampleDefCtx.symtab_ "c" (sampleDef 1) ⟨8, ⟨4, 1⟩⟩
      ⟨7, ⟨2, 1⟩⟩).2.2.2.2
      (by
        intro e he
        simp only [sampleDefCtx, if_true, Option.some.injEq] at he
        rw [← he])).1⟩

/-! ## Claims on `GetColumnDesc` -/

/-- C15: for a name whose entry holds a resolved descriptor `d`,
`GetColumnDesc(name, true)` returns `d` and leaves the context `ctx1` whose
columns-to-read set is the old one with `d.id` inserted; a second call on
`ctx1` returns `d` again and leaves `ctx1` as it is; the set holds `d.id`,
exactly once. -/
theorem GetColumnDesc_mark_idempotent (ctx : SemContext) (name : String) (e : SymbolEntry)
    (d : ColumnDesc) (he : ctx.symtab_ name = some e) (hd : e.column_desc_ = some d) :
    ∃ ctx1,
      GetColumnDesc ctx name true = Run.done (some d, ctx1) ∧
      GetColumnDesc ctx1 name true = Run.done (some d, ctx1) ∧
      ctx1.column_refs = insert d.id ctx.column_refs ∧
      d.id ∈ ctx1.column_refs ∧
      ctx1.column_refs.val.count d.id = 1 := by
  refine ⟨{ ctx with column_refs := AddColumnRef ctx.column_refs d }, ?_, ?_, rfl, ?_, ?_⟩
  · simp [GetColumnDesc, SeekSymbol, he, hd]
  · simp [GetColumnDesc, SeekSymbol, he, hd, AddColumnRef]
  · exact Finset.mem_insert_self _ _
  · exact Multiset.count_eq_one_of_mem (Finset.nodup _) (Finset.mem_insert_self _ _)

/-- Witness of C15: marking `h` twice in a context that has read no column
yet leaves the columns-to-read set `{10}`. -/
theorem GetColumnDesc_mark_idempotent_witness :
    ∃ ctx1,
      GetColumnDesc sampleDescCtx "h" true = Run.done (some sampleDesc, ctx1) ∧
      GetColumnDesc ctx1 "h" true = Run.done (some sampleDesc, ctx1) ∧
      ctx1.column_refs = {10} := by
  obtain ⟨ctx1, h1, h2, h3, _, _⟩ :=
    GetColumnDesc_mark_idempotent sampleDescCtx "h" _ sampleDesc rfl rfl
  exact ⟨ctx1, h1, h2, by rw [h3]; rfl⟩

/-- C16: `GetColumnDesc(name, false)` returns the descriptor slot of the entry
(nothing when there is no entry) and leaves the whole context, so also the
columns-to-read set and the symbol table, as it was; for a name without an
entry `GetColumnDesc(name, b)` returns nothing for both values of `b`, leaves
the context as it was, and the name is still without an entry afterwards. -/
theorem GetColumnDesc_read_only (ctx : SemContext) (name : String) :
    GetColumnDesc ctx name false =
      Run.done ((ctx.symtab_ name).bind (fun e => e.column_desc_), ctx) ∧
    (ctx.symtab_ name = none →
      ∀ b, GetColumnDesc ctx name b = Run.done (none, ctx) ∧ SeekSymbol ctx name = none) := by
  constructor
  · unfold GetColumnDesc SeekSymbol
    cases ctx.symtab_ name <;> simp
  · intro h b
    simp [GetColumnDesc, SeekSymbol, h]

/-- Witness of C16: in the fresh context the name `x` has no entry; the
lookup with marking returns nothing and changes nothing. -/
theorem GetColumnDesc_read_only_witness :
    GetColumnDesc sampleCtx "x" true = Run.done (none, sampleCtx) ∧
    SeekSymbol sampleCtx "x" = none :=
  (GetColumnDesc_read_only sampleCtx "x").2 rfl true

/-- C19, evaluation at the failing input: after `MapSymbol` has inserted a
column definition under `c` into the empty symbol table, the entry of `c` has
a null descriptor slot; `GetColumnDesc("c", true)` dereferences it, which is
undefined, while `GetColumnDesc("c", false)` returns the null pointer. -/
theorem GetColumnDesc_null_descriptor :
    (MapSymbol_PTColumnDefinition sampleCtx.symtab_ "c" (sampleDef 0)).1 = Status.OK ∧
    GetColumnDesc
      { sampleCtx with symtab_ :=
          (MapSymbol_PTColumnDefinition sampleCtx.symtab_ "c" (sampleDef 0)).2 } "c" true =
      Run.undefined ∧
    GetColumnDesc
      { sampleCtx with symtab_ :=
          (MapSymbol_PTColumnDefinition sampleCtx.symtab_ "c" (sampleDef 0)).2 } "c" false =
      Run.done (none,
        { sampleCtx with symtab_ :=
            (MapSymbol_PTColumnDefinition sampleCtx.symtab_ "c" (sampleDef 0)).2 }) :=
  ⟨rfl, rfl, rfl⟩

/-! ## Further properties of the column loop -/

/-- The column loop does not reach undefined behaviour. -/
theorem LookupTable_loop_ne_undefined (env : Env) (schema : YBSchema) (nk nh : Nat)
    (todo : List YBColumnSchema) (idx : Nat) (symtab : SymTab) (tc : List ColumnDesc) :
    LookupTable.loop env schema nk nh todo idx symtab tc ≠ Run.undefined := by
  induction todo generalizing idx symtab tc with
  | nil => simp [LookupTable.loop]
  | cons c todo ih =>
    rw [LookupTable_loop_cons]
    split
    · simp
    · exact ih _ _ _

/-- A column still to be visited whose name has a populated descriptor slot
makes the loop end in `LOG(FATAL)`. -/
theorem LookupTable_loop_fatal_of_populated (env : Env) (schema : YBSchema) (nk nh : Nat)
    (todo : List YBColumnSchema) (idx : Nat) (symtab : SymTab) (tc : List ColumnDesc)
    (h : ∃ col ∈ todo, (symtab.subscript col.name).column_desc_.isSome = true) :
    LookupTable.loop env schema nk nh todo idx symtab tc = Run.fatal := by
  induction todo generalizing idx symtab tc with
  | nil =>
    obtain ⟨col, hcol, _⟩ := h
    cases hcol
  | cons c todo ih =>
    rw [LookupTable_loop_cons]
    by_cases hc : (symtab.subscript c.name).column_desc_.isSome = true
    · rw [if_pos hc]
    · rw [if_neg hc]
      obtain ⟨col, hcol, hpop⟩ := h
      rcases List.mem_cons.1 hcol with heq | hmem
      · subst heq; exact absurd hpop hc
      · apply ih
        refine ⟨col, hmem, ?_⟩
        by_cases hn : col.name = c.name
        · rw [hn, SymTab.subscript_store_same]; rfl
        · rw [SymTab.subscript_store_ne _ _ _ _ hn]; exact hpop

/-- Two columns with the same name make the loop end in `LOG(FATAL)`: at the
latest the second of them finds the slot populated by the first. -/
theorem LookupTable_loop_fatal_of_dup (env : Env) (schema : YBSchema) (nk nh : Nat)
    (todo : List YBColumnSchema) (idx : Nat) (symtab : SymTab) (tc : List ColumnDesc)
    (h : ¬ (todo.map (fun c => c.name)).Nodup) :
    LookupTable.loop env schema nk nh todo idx symtab tc = Run.fatal := by
  induction todo generalizing idx symtab tc with
  | nil => simp at h
  | cons c todo ih =>
    rw [LookupTable_loop_cons]
    by_cases hc : (symtab.subscript c.name).column_desc_.isSome = true
    · rw [if_pos hc]
    · rw [if_neg hc]
      rw [List.map_cons, List.nodup_cons, not_and_or, not_not] at h
      rcases h with hmem | hdup
      · obtain ⟨col, hcol, hname⟩ := List.mem_map.1 hmem
        apply LookupTable_loop_fatal_of_populated
        refine ⟨col, hcol, ?_⟩
        rw [hname, SymTab.subscript_store_same]; rfl
      · exact ih _ _ _ hdup

/-- A loop that returned has found the descriptor slot of every column name
empty. -/
theorem LookupTable_loop_fresh_of_done (env : Env) (schema : YBSchema) (nk nh : Nat)
    (todo : List YBColumnSchema) (idx : Nat) (symtab : SymTab) (tc : List ColumnDesc)
    (r : Status × SymTab × List ColumnDesc)
    (h : LookupTable.loop env schema nk nh todo idx symtab tc = Run.done r) :
    ∀ col ∈ todo, (symtab.subscript col.name).column_desc_ = none := by
  intro col hcol
  cases hs : (symtab.subscript col.name).column_desc_ with
  | none => rfl
  | some d =>
    have := LookupTable_loop_fatal_of_populated env schema nk nh todo idx symtab tc
      ⟨col, hcol, by rw [hs]; rfl⟩
    rw [this] at h
    cases h

/-- A loop that returned has visited columns with pairwise distinct names. -/
theorem LookupTable_loop_nodup_of_done (env : Env) (schema : YBSchema) (nk nh : Nat)
    (todo : List YBColumnSchema) (idx : Nat) (symtab : SymTab) (tc : List ColumnDesc)
    (r : Status × SymTab × List ColumnDesc)
    (h : LookupTable.loop env schema nk nh todo idx symtab tc = Run.done r) :
    (todo.map (fun c => c.name)).Nodup := by
  by_contra hdup
  rw [LookupTable_loop_fatal_of_dup env schema nk nh todo idx symtab tc hdup] at h
  cases h

/-- The symbol table after a loop that returned: the name of the `k`-th
remaining column holds its previous entry with the descriptor slot set to
the descriptor of index `idx + k`; every other name is unchanged. -/
theorem LookupTable_loop_symtab (env : Env) (schema : YBSchema) (nk nh : Nat)
    (todo : List YBColumnSchema) (idx : Nat) (symtab : SymTab) (tc : List ColumnDesc)
    (st : Status) (symtab1 : SymTab) (tc1 : List ColumnDesc)
    (h : LookupTable.loop env schema nk nh todo idx symtab tc = Run.done (st, symtab1, tc1)) :
    (∀ k col, todo[k]? = some col →
      symtab1 col.name = some { symtab.subscript col.name with
        column_desc_ := some (ColumnDesc.unset.Init (idx + k) (schema.ColumnId (idx + k))
          (decide (idx + k < nh)) (decide (idx + k < nk)) col.is_static col.is_counter col.type
          (env.ToInternalDataType col.type)) }) ∧
    (∀ n, n ∉ todo.map (fun c => c.name) → symtab1 n = symtab n) := by
  have hdistinct := LookupTable_loop_nodup_of_done _ _ _ _ _ _ _ _ _ h
  induction todo generalizing idx symtab tc with
  | nil =>
    simp only [LookupTable.loop] at h
    injection h with h
    injection h with _ h
    injection h with h _
    subst h
    exact ⟨fun k col hk => by simp at hk, fun _ _ => rfl⟩
  | cons c todo ih =>
    rw [LookupTable_loop_cons] at h
    split at h
    · cases h
    · rw [List.map_cons, List.nodup_cons] at hdistinct
      obtain ⟨hcols, hrest⟩ := ih _ _ _ h hdistinct.2
      constructor
      · intro k col hk
        cases k with
        | zero =>
          simp only [List.getElem?_cons_zero, Option.some.injEq] at hk
          subst hk
          rw [hrest _ hdistinct.1, SymTab.store_same]
          rfl
        | succ k =>
          simp only [List.getElem?_cons_succ] at hk
          have hmem : col ∈ todo := List.getElem?_mem hk
          have hne : col.name ≠ c.name := by
            intro heq
            apply hdistinct.1
            rw [← heq]
            exact List.mem_map_of_mem (fun c => c.name) hmem
          rw [hcols k col hk, SymTab.subscript_store_ne _ _ _ _ hne,
            show idx + (k + 1) = idx + 1 + k by omega]
      · intro n hn
        rw [List.map_cons, List.mem_cons, not_or] at hn
        rw [hrest n hn.2, SymTab.store_other _ _ _ _ hn.1]

/-- The policy check passes exactly when the tested conjunction is false. -/
theorem policy_check_false (env : Env) (q : YBTableName) (write_only : Bool)
    (h : ¬ (env.is_system q = true ∧ write_only = true ∧
      env.FLAGS_yb_system_namespace_readonly = true)) :
    (env.is_system q && write_only && env.FLAGS_yb_system_namespace_readonly) = false := by
  cases h1 : env.is_system q <;> cases h2 : write_only <;>
    cases h3 : env.FLAGS_yb_system_namespace_readonly <;> simp_all

/-- The path of `LookupTable` after both checks have passed and the catalog
has returned a table: the table becomes the current table, the counts and the
resized vector are written, and the column loop decides the outcome. -/
theorem LookupTable_resolved_found (env : Env) (ctx : SemContext) (q : YBTableName)
    (out : LookupOut) (write_only : Bool) (loc : YBLocation) (table : YBTable)
    (hc : (env.is_system q && write_only && env.FLAGS_yb_system_namespace_readonly) = false)
    (hfound : (env.GetTableDesc q).1 = some table) :
    LookupTable.resolved env ctx q out write_only loc =
      match LookupTable.loop env table.schema table.schema.num_key_columns
          table.schema.num_hash_key_columns table.schema.columns 0 ctx.symtab_
          (resize out.table_columns table.schema.num_columns) with
      | Run.done (status, symtab, table_columns) =>
        Run.done (status,
          { (GetTableDesc env ctx q).2 with current_table_ := some table, symtab_ := symtab },
          { out with is_system := env.is_system q, table := some table,
                     num_key_columns := table.schema.num_key_columns,
                     num_hash_key_columns := table.schema.num_hash_key_columns,
                     table_columns := table_columns })
      | Run.fatal => Run.fatal
      | Run.undefined => Run.undefined := by
  have hg : (GetTableDesc env ctx q).1 = some table := by
    rw [GetTableDesc_table, hfound]
  simp only [LookupTable.resolved, hc, hg, GetTableDesc_symtab]
  rfl

/-- The context that `GetTableDesc` leaves when the catalog returns nothing:
only the call is recorded. -/
theorem GetTableDesc_absent (env : Env) (ctx : SemContext) (q : YBTableName)
    (h : (env.GetTableDesc q).1 = none) :
    GetTableDesc env ctx q =
      (none, { ctx with catalog_calls := ctx.catalog_calls ++ [q] }) := by
  simp [GetTableDesc, h]

/-- The flag `cache_used_` after `GetTableDesc`: it is set when the catalog
returns a table and reports the cache, and keeps its value otherwise. -/
theorem GetTableDesc_cache_used (env : Env) (ctx : SemContext) (q : YBTableName) :
    (GetTableDesc env ctx q).2.cache_used_ =
      (ctx.cache_used_ || ((env.GetTableDesc q).1.isSome && (env.GetTableDesc q).2)) := by
  unfold GetTableDesc
  cases (env.GetTableDesc q).1 <;> cases (env.GetTableDesc q).2 <;> simp

/-- Without marking, `GetColumnDesc` returns the descriptor slot of the entry
and leaves the context as it was. -/
theorem GetColumnDesc_not_reading (ctx : SemContext) (name : String) :
    GetColumnDesc ctx name false =
      Run.done ((ctx.symtab_ name).bind (fun e => e.column_desc_), ctx) := by
  unfold GetColumnDesc SeekSymbol
  cases ctx.symtab_ name <;> simp

/-- A failure status returned after the namespace check is the policy
failure, with the context untouched, or the lookup failure, with only the
catalog call recorded. -/
theorem LookupTable_resolved_error (env : Env) (ctx : SemContext) (q : YBTableName)
    (out : LookupOut) (write_only : Bool) (loc loc1 : YBLocation) (code : ErrorCode)
    (ctx1 : SemContext) (out1 : LookupOut)
    (h : LookupTable.resolved env ctx q out write_only loc =
      Run.done (Status.Error loc1 code, ctx1, out1)) :
    (code = ErrorCode.SYSTEM_NAMESPACE_READONLY ∧ ctx1 = ctx) ∨
    (code = ErrorCode.TABLE_NOT_FOUND ∧
      ctx1 = { ctx with catalog_calls := ctx.catalog_calls ++ [q] }) := by
  by_cases hc : (env.is_system q && write_only &&
      env.FLAGS_yb_system_namespace_readonly) = true
  · left
    simp only [LookupTable.resolved, hc, if_true, Run.done.injEq, Prod.mk.injEq,
      Status.Error.injEq] at h
    exact ⟨h.1.2.symm, h.2.1.symm⟩
  · have hc2 : (env.is_system q && write_only &&
        env.FLAGS_yb_system_namespace_readonly) = false := by
      cases hb : (env.is_system q && write_only && env.FLAGS_yb_system_namespace_readonly)
      · rfl
      · exact absurd hb hc
    cases hg : (env.GetTableDesc q).1 with
    | none =>
      right
      have hg1 : (GetTableDesc env ctx q).1 = none := by rw [GetTableDesc_table, hg]
      have hg2 := GetTableDesc_absent env ctx q hg
      simp only [LookupTable.resolved, hc2, hg1, Bool.false_eq_true, if_false, Run.done.injEq,
        Prod.mk.injEq, Status.Error.injEq] at h
      refine ⟨h.1.2.symm, ?_⟩
      rw [← h.2.1, hg2]
    | some table =>
      rw [LookupTable_resolved_found env ctx q out write_only loc table hc2 hg] at h
      cases hl : LookupTable.loop env table.schema table.schema.num_key_columns
          table.schema.num_hash_key_columns table.schema.columns 0 ctx.symtab_
          (resize out.table_columns table.schema.num_columns) with
      | done r =>
        obtain ⟨st, r2⟩ := r
        have hst := LookupTable_loop_status _ _ _ _ _ _ _ _ _ _ hl
        subst hst
        rw [hl] at h
        simp only [Run.done.injEq, Prod.mk.injEq] at h
        exact absurd h.1 (by simp)
      | fatal => rw [hl] at h; cases h
      | undefined => rw [hl] at h; cases h

/-! ## Further claims on `LookupTable` -/

/-- C11: after a `LookupTable` that returned `OK` for the table the catalog
holds, the column names are pairwise distinct, and for every column index `i`
the lookup `GetColumnDesc(name of column i, false)` returns the descriptor
built for column `i` (element `i` of `*table_columns`, with index `i`) without
changing the context; a name that is no schema column and had no entry before
has no entry afterwards, and its lookup returns nothing. -/
theorem LookupTable_then_GetColumnDesc (env : Env) (ctx : SemContext) (name : YBTableName)
    (out : LookupOut) (write_only : Bool) (loc : YBLocation) (table : YBTable)
    (ctx1 : SemContext) (out1 : LookupOut)
    (hns : name.has_namespace = true ∨ env.CurrentKeyspace ≠ "")
    (hfound : (env.GetTableDesc (if name.has_namespace then name else name.set_namespace_name env.CurrentKeyspace)).1 = some table)
    (hsucc : LookupTable env ctx name out write_only loc = Run.done (Status.OK, ctx1, out1)) :
    (table.schema.columns.map (fun c => c.name)).Nodup ∧
    (∀ i col, table.schema.columns[i]? = some col →
      ∃ d, GetColumnDesc ctx1 col.name false = Run.done (some d, ctx1) ∧
        out1.table_columns[i]? = some d ∧ d.index = i) ∧
    (∀ n, n ∉ table.schema.columns.map (fun c => c.name) → ctx.symtab_ n = none →
      ctx1.symtab_ n = none ∧ GetColumnDesc ctx1 n false = Run.done (none, ctx1)) := by
  rw [LookupTable_eq_resolved env ctx name out write_only loc hns] at hsucc
  generalize (if name.has_namespace then name else name.set_namespace_name env.CurrentKeyspace) = q at hfound hsucc
  have hc : (env.is_system q && write_only && env.FLAGS_yb_system_namespace_readonly) = false := by
    cases hb : (env.is_system q && write_only && env.FLAGS_yb_system_namespace_readonly)
    · rfl
    · simp [LookupTable.resolved, hb] at hsucc
  rw [LookupTable_resolved_found env ctx q out write_only loc table hc hfound] at hsucc
  cases hl : LookupTable.loop env table.schema table.schema.num_key_columns
      table.schema.num_hash_key_columns table.schema.columns 0 ctx.symtab_
      (resize out.table_columns table.schema.num_columns) with
  | fatal => rw [hl] at hsucc; cases hsucc
  | undefined => rw [hl] at hsucc; cases hsucc
  | done r =>
    obtain ⟨st, symtab1, tc1⟩ := r
    rw [hl] at hsucc
    simp only [Run.done.injEq, Prod.mk.injEq] at hsucc
    obtain ⟨_, hctx, hout⟩ := hsucc
    have hdistinct := LookupTable_loop_nodup_of_done _ _ _ _ _ _ _ _ _ hl
    have hfresh := LookupTable_loop_fresh_of_done _ _ _ _ _ _ _ _ _ hl
    obtain ⟨hcols, hrest⟩ := LookupTable_loop_symtab _ _ _ _ _ _ _ _ _ _ _ hl
    obtain ⟨symtab2, tc2, hrun, _, _, hbuilt⟩ :=
      LookupTable_loop_columns env table.schema table.schema.num_key_columns
        table.schema.num_hash_key_columns table.schema.columns 0 ctx.symtab_
        (resize out.table_columns table.schema.num_columns) hdistinct hfresh
        (by rw [resize_length]; simp [YBSchema.num_columns])
    rw [hl] at hrun
    simp only [Run.done.injEq, Prod.mk.injEq] at hrun
    obtain ⟨_, _, htc⟩ := hrun
    subst htc
    have hsym : ctx1.symtab_ = symtab1 := by rw [← hctx]
    have htcs : out1.table_columns = tc1 := by rw [← hout]
    refine ⟨hdistinct, ?_, ?_⟩
    · intro i col hi
      have h1 := hcols i col hi
      have h2 := hbuilt i col hi
      simp only [Nat.zero_add] at h1 h2
      refine ⟨ColumnDesc.unset.Init i (table.schema.ColumnId i)
        (decide (i < table.schema.num_hash_key_columns))
        (decide (i < table.schema.num_key_columns)) col.is_static col.is_counter col.type
        (env.ToInternalDataType col.type), ?_, ?_, rfl⟩
      · rw [GetColumnDesc_not_reading, hsym, h1]
        rfl
      · rw [htcs, h2]
    · intro n hn habsent
      have h3 : ctx1.symtab_ n = none := by rw [hsym, hrest n hn, habsent]
      refine ⟨h3, ?_⟩
      rw [GetColumnDesc_not_reading, h3]
      rfl

/-- Witness of C11: after resolving `t` in keyspace `ks` against the sample
catalog, the lookup of the second column `r` returns a descriptor of index 1
and the lookup of `x` returns nothing. -/
theorem LookupTable_then_GetColumnDesc_witness :
    ∃ ctx1 out1,
      LookupTable (sampleEnv "ks") sampleCtx ⟨"", "t"⟩ sampleOut false ⟨3, 1⟩ =
        Run.done (Status.OK, ctx1, out1) ∧
      (∃ d, GetColumnDesc ctx1 "r" false = Run.done (some d, ctx1) ∧ d.index = 1) ∧
      GetColumnDesc ctx1 "x" false = Run.done (none, ctx1) := by
  obtain ⟨ctx1, out1, h⟩ : ∃ ctx1 out1,
      LookupTable (sampleEnv "ks") sampleCtx ⟨"", "t"⟩ sampleOut false ⟨3, 1⟩ =
        Run.done (Status.OK, ctx1, out1) := ⟨_, _, rfl⟩
  obtain ⟨_, hcols, hrest⟩ :=
    LookupTable_then_GetColumnDesc (sampleEnv "ks") sampleCtx ⟨"", "t"⟩ sampleOut false ⟨3, 1⟩
      ⟨sampleSchema⟩ ctx1 out1 (Or.inr (by decide)) rfl h
  obtain ⟨d, hd, _, hidx⟩ := hcols 1 _ rfl
  exact ⟨ctx1, out1, h, ⟨d, hd, hidx⟩, (hrest "x" (by decide) rfl).2⟩

/-- Counterexample to C12 as stated: the catalog returns a schema whose first
and third column are both named `a`; the checks pass, and `LookupTable` ends
in `LOG(FATAL)`: it returns no status, so it does not fail with
`DUPLICATE_COLUMN`. -/
theorem LookupTable_duplicate_column_counterexample :
    ¬ (sampleDupSchema.columns.map (fun c => c.name)).Nodup ∧
    (sampleDupEnv.GetTableDesc ⟨"ks", "t"⟩).1.isSome = true ∧
    LookupTable sampleDupEnv sampleCtx ⟨"", "t"⟩ sampleOut false ⟨1, 1⟩ = Run.fatal ∧
    errorCode (LookupTable sampleDupEnv sampleCtx ⟨"", "t"⟩ sampleOut false ⟨1, 1⟩) ≠
      some ErrorCode.DUPLICATE_COLUMN := by
  have h : LookupTable sampleDupEnv sampleCtx ⟨"", "t"⟩ sampleOut false ⟨1, 1⟩ = Run.fatal := rfl
  refine ⟨by decide, rfl, h, ?_⟩
  rw [h]
  simp [errorCode]

/-- C12 (amended): when the namespace and policy checks pass and the catalog
returns a table in whose schema two columns share a name, `LookupTable` takes
the `LOG(FATAL)` path of the descriptor insert: it returns no status, in
particular not the error `DUPLICATE_COLUMN`. -/
theorem LookupTable_duplicate_column_fatal (env : Env) (ctx : SemContext)
    (name : YBTableName) (out : LookupOut) (write_only : Bool) (loc : YBLocation)
    (table : YBTable)
    (hns : name.has_namespace = true ∨ env.CurrentKeyspace ≠ "")
    (hpolicy : ¬ (env.is_system (if name.has_namespace then name else name.set_namespace_name env.CurrentKeyspace) = true ∧
        write_only = true ∧ env.FLAGS_yb_system_namespace_readonly = true))
    (hfound : (env.GetTableDesc (if name.has_namespace then name else name.set_namespace_name env.CurrentKeyspace)).1 = some table)
    (hdup : ¬ (table.schema.columns.map (fun c => c.name)).Nodup) :
    LookupTable env ctx name out write_only loc = Run.fatal ∧
    errorCode (LookupTable env ctx name out write_only loc) ≠
      some ErrorCode.DUPLICATE_COLUMN := by
  have h : LookupTable env ctx name out write_only loc = Run.fatal := by
    rw [LookupTable_eq_resolved env ctx name out write_only loc hns,
      LookupTable_resolved_found env ctx _ out write_only loc table
        (policy_check_false env _ write_only hpolicy) hfound,
      LookupTable_loop_fatal_of_dup _ _ _ _ _ _ _ _ hdup]
  rw [h]
  exact ⟨rfl, by simp [errorCode]⟩

/-- Witness of C12 (amended): the sample catalog with the duplicated column
name `a`. -/
theorem LookupTable_duplicate_column_fatal_witness :
    LookupTable sampleDupEnv sampleCtx ⟨"ks", "t"⟩ sampleOut true ⟨1, 1⟩ = Run.fatal :=
  (LookupTable_duplicate_column_fatal sampleDupEnv sampleCtx ⟨"ks", "t"⟩ sampleOut true ⟨1, 1⟩
    ⟨sampleDupSchema⟩ (Or.inl (by decide)) (by decide) rfl (by decide)).1

/-- Counterexample to C17 as stated: the catalog returns no table and reports
the cache; `LookupTable` reaches the catalog lookup and returns
`TABLE_NOT_FOUND`, and the flag `cache_used_`, false before the call, is
false after it. -/
theorem LookupTable_cache_used_counterexample :
    (sampleMissEnv.GetTableDesc ⟨"ks", "t"⟩).2 = true ∧
    sampleCtx.cache_used_ = false ∧
    errorCode (LookupTable sampleMissEnv sampleCtx ⟨"ks", "t"⟩ sampleOut false ⟨1, 1⟩) =
      some ErrorCode.TABLE_NOT_FOUND ∧
    (ctxAfter (LookupTable sampleMissEnv sampleCtx ⟨"ks", "t"⟩ sampleOut false ⟨1, 1⟩)).map
      (fun c => c.cache_used_) = some false :=
  ⟨rfl, rfl, rfl, rfl⟩

/-- C17 (amended): a `LookupTable` call that reaches the catalog lookup ends
in `LOG(FATAL)` or returns, and when it returns the flag `cache_used_` is
true iff it was true before the call or the catalog returned a table and
reported the cache.  When the catalog returns no table the call returns
`TABLE_NOT_FOUND` and the flag keeps its value, whatever the catalog reported
about the cache. -/
theorem LookupTable_cache_used (env : Env) (ctx : SemContext) (name : YBTableName)
    (out : LookupOut) (write_only : Bool) (loc : YBLocation)
    (hns : name.has_namespace = true ∨ env.CurrentKeyspace ≠ "")
    (hpolicy : ¬ (env.is_system (if name.has_namespace then name else name.set_namespace_name env.CurrentKeyspace) = true ∧
        write_only = true ∧ env.FLAGS_yb_system_namespace_readonly = true)) :
    (LookupTable env ctx name out write_only loc = Run.fatal ∨
      ∃ st ctx1 out1,
        LookupTable env ctx name out write_only loc = Run.done (st, ctx1, out1) ∧
        ctx1.cache_used_ =
          (ctx.cache_used_ ||
            ((env.GetTableDesc (if name.has_namespace then name else name.set_namespace_name env.CurrentKeyspace)).1.isSome && (env.GetTableDesc (if name.has_namespace then name else name.set_namespace_name env.CurrentKeyspace)).2))) ∧
    ((env.GetTableDesc (if name.has_namespace then name else name.set_namespace_name env.CurrentKeyspace)).1 = none →
      ∃ ctx1 out1,
        LookupTable env ctx name out write_only loc =
          Run.done (Status.Error loc ErrorCode.TABLE_NOT_FOUND, ctx1, out1) ∧
        ctx1.cache_used_ = ctx.cache_used_) := by
  rw [LookupTable_eq_resolved env ctx name out write_only loc hns]
  generalize (if name.has_namespace then name else name.set_namespace_name env.CurrentKeyspace) = q at hpolicy
  have hc := policy_check_false env q write_only hpolicy
  have habs : (env.GetTableDesc q).1 = none →
      ∃ ctx1 out1,
        LookupTable.resolved env ctx q out write_only loc =
          Run.done (Status.Error loc ErrorCode.TABLE_NOT_FOUND, ctx1, out1) ∧
        ctx1.cache_used_ = ctx.cache_used_ := by
    intro hg
    refine ⟨{ ctx with catalog_calls := ctx.catalog_calls ++ [q] },
      { out with is_system := env.is_system q, table := none }, ?_, rfl⟩
    simp [LookupTable.resolved, hc, GetTableDesc, hg]
  refine ⟨?_, habs⟩
  cases hg : (env.GetTableDesc q).1 with
  | none =>
    right
    obtain ⟨ctx1, out1, h1, h2⟩ := habs hg
    exact ⟨_, ctx1, out1, h1, by simp [h2]⟩
  | some table =>
    rw [LookupTable_resolved_found env ctx q out write_only loc table hc hg]
    cases hl : LookupTable.loop env table.schema table.schema.num_key_columns
        table.schema.num_hash_key_columns table.schema.columns 0 ctx.symtab_
        (resize out.table_columns table.schema.num_columns) with
    | fatal => left; rfl
    | undefined => exact absurd hl (LookupTable_loop_ne_undefined _ _ _ _ _ _ _ _)
    | done r =>
      right
      obtain ⟨st, symtab1, tc1⟩ := r
      refine ⟨st, _, _, rfl, ?_⟩
      simp only []
      rw [GetTableDesc_cache_used, hg]

/-- Witness of C17 (amended): resolving `ks.t` in the sample catalog, which
serves it from the cache, sets the flag. -/
theorem LookupTable_cache_used_witness :
    (ctxAfter (LookupTable (sampleEnv "ks") sampleCtx ⟨"ks", "t"⟩ sampleOut false ⟨1, 1⟩)).map
      (fun c => c.cache_used_) = some true := by
  rcases (LookupTable_cache_used (sampleEnv "ks") sampleCtx ⟨"ks", "t"⟩ sampleOut false ⟨1, 1⟩
    (Or.inl (by decide)) (by decide)).1 with h | ⟨st, ctx1, out1, h, hflag⟩
  · have hd : ∃ c o, LookupTable (sampleEnv "ks") sampleCtx ⟨"ks", "t"⟩ sampleOut
        false ⟨1, 1⟩ = Run.done (Status.OK, c, o) := ⟨_, _, rfl⟩
    obtain ⟨c, o, hd⟩ := hd
    rw [hd] at h
    cases h
  · rw [h]
    simp only [ctxAfter, Option.map_some', hflag]
    rfl

/-- C20: whenever `LookupTable` returns a failure status, the code is
`NO_NAMESPACE_USED`, `SYSTEM_NAMESPACE_READONLY` or `TABLE_NOT_FOUND`, and the
symbol table, the current table, the flag `cache_used_`, the set of analysed
tables (and the columns-to-read set) are those before the call; for the
first two codes no catalog call has been made. -/
theorem LookupTable_failure_frame (env : Env) (ctx : SemContext) (name : YBTableName)
    (out : LookupOut) (write_only : Bool) (loc loc1 : YBLocation) (code : ErrorCode)
    (ctx1 : SemContext) (out1 : LookupOut)
    (h : LookupTable env ctx name out write_only loc =
      Run.done (Status.Error loc1 code, ctx1, out1)) :
    (code = ErrorCode.NO_NAMESPACE_USED ∨ code = ErrorCode.SYSTEM_NAMESPACE_READONLY ∨
      code = ErrorCode.TABLE_NOT_FOUND) ∧
    ctx1.symtab_ = ctx.symtab_ ∧
    ctx1.current_table_ = ctx.current_table_ ∧
    ctx1.cache_used_ = ctx.cache_used_ ∧
    ctx1.analyzed_tables = ctx.analyzed_tables ∧
    ctx1.column_refs = ctx.column_refs ∧
    (code = ErrorCode.NO_NAMESPACE_USED ∨ code = ErrorCode.SYSTEM_NAMESPACE_READONLY →
      ctx1.catalog_calls = ctx.catalog_calls) := by
  have hres : ∀ q, LookupTable.resolved env ctx q out write_only loc =
      Run.done (Status.Error loc1 code, ctx1, out1) →
      (code = ErrorCode.NO_NAMESPACE_USED ∨ code = ErrorCode.SYSTEM_NAMESPACE_READONLY ∨
        code = ErrorCode.TABLE_NOT_FOUND) ∧
      ctx1.symtab_ = ctx.symtab_ ∧ ctx1.current_table_ = ctx.current_table_ ∧
      ctx1.cache_used_ = ctx.cache_used_ ∧ ctx1.analyzed_tables = ctx.analyzed_tables ∧
      ctx1.column_refs = ctx.column_refs ∧
      (code = ErrorCode.NO_NAMESPACE_USED ∨ code = ErrorCode.SYSTEM_NAMESPACE_READONLY →
        ctx1.catalog_calls = ctx.catalog_calls) := by
    intro q hq
    rcases LookupTable_resolved_error env ctx q out write_only loc loc1 code ctx1 out1 hq with
      ⟨hcode, hctx⟩ | ⟨hcode, hctx⟩
    · subst hcode hctx
      exact ⟨Or.inr (Or.inl rfl), rfl, rfl, rfl, rfl, rfl, fun _ => rfl⟩
    · subst hcode hctx
      refine ⟨Or.inr (Or.inr rfl), rfl, rfl, rfl, rfl, rfl, ?_⟩
      intro hcases
      rcases hcases with h1 | h1 <;> cases h1
  unfold LookupTable at h
  cases hn : name.has_namespace with
  | true =>
    simp only [hn, Bool.not_true, Bool.false_eq_true, if_false] at h
    exact hres _ h
  | false =>
    simp only [hn, Bool.not_false, if_true] at h
    by_cases hks : env.CurrentKeyspace = ""
    · simp only [hks, decide_True, if_true, Run.done.injEq, Prod.mk.injEq,
        Status.Error.injEq] at h
      obtain ⟨⟨_, hcode⟩, hctx, _⟩ := h
      subst hcode hctx
      exact ⟨Or.inl rfl, rfl, rfl, rfl, rfl, rfl, fun _ => rfl⟩
    · simp only [hks, decide_False, Bool.false_eq_true, if_false] at h
      exact hres _ h

/-- Witness of C20: the failed resolution of the absent table `ks.nope`
leaves the flag and the set of analysed tables of the fresh context. -/
theorem LookupTable_failure_frame_witness :
    ∃ ctx1 out1,
      LookupTable (sampleEnv "ks") sampleCtx ⟨"", "nope"⟩ sampleOut false ⟨2, 7⟩ =
        Run.done (Status.Error ⟨2, 7⟩ ErrorCode.TABLE_NOT_FOUND, ctx1, out1) ∧
      ctx1.cache_used_ = false ∧ ctx1.analyzed_tables = [] := by
  obtain ⟨ctx1, out1, h⟩ : ∃ ctx1 out1,
      LookupTable (sampleEnv "ks") sampleCtx ⟨"", "nope"⟩ sampleOut false ⟨2, 7⟩ =
        Run.done (Status.Error ⟨2, 7⟩ ErrorCode.TABLE_NOT_FOUND, ctx1, out1) := ⟨_, _, rfl⟩
  obtain ⟨_, _, _, hflag, htabs, _, _⟩ :=
    LookupTable_failure_frame (sampleEnv "ks") sampleCtx ⟨"", "nope"⟩ sampleOut false ⟨2, 7⟩
      ⟨2, 7⟩ ErrorCode.TABLE_NOT_FOUND ctx1 out1 h
  exact ⟨ctx1, out1, h, hflag, htabs⟩

end yb.sql
